import Mathlib

/-!
# Chemfiles: canonical connectivity tuples and the format registry

A shallow embedding of parts of the chemfiles C++ library:

* `include/chemfiles/Topology.hpp`: the `bond`, `angle` and `dihedral` structs
  (constructor, `operator[]`, `operator==`), `Topology::add_bond`, `natoms`,
  `natom_types`, `resize` and `operator[]`;
* `include/chemfiles/cerrors.hpp`: `CAPIStatus`, `CHFL_ERROR_WRAP_RETCODE` and
  `CHFL_ERROR_WRAP`;
* `src/capi.cpp`: `chfl_strerror`, `chfl_last_error`, `chfl_topology_add_bond`,
  the array getters `chfl_topology_bonds`, `chfl_topology_angles`,
  `chfl_topology_dihedrals` and their counts, `chfl_atom_name`,
  `chfl_atom_full_name`, `chfl_frame_positions`, `chfl_frame_velocities`,
  `chfl_frame_set_positions`, `chfl_frame_set_velocities`,
  `chfl_cell_set_angles`, `chfl_trajectory_read`, `chfl_trajectory_read_step`,
  `chfl_trajectory_set_topology`;
* `src/Format.cpp`: the defaults `Format::read_step`, `read`, `write`;
* `src/TrajectoryFactory.cpp`: `format`, `by_extension`, `register_format`,
  `register_extension`, `register_all_formats` and the constructor.

Classes whose files are not among the sources (`Connectivity`, `UnitCell`,
`Frame`, `Trajectory`) are modelled from the specification; each such
definition says so.

Conventions.  `size_t` values are natural numbers: the embedded code only
compares them and takes `std::min` / `std::max`, so no wrap-around can occur.
Assertions are enabled: a constructor whose `assert` fails produces no object
and returns `none`; its `stored` function is the constructor body after the
assertions.  A function that throws returns `Except.error` with the thrown
exception.  `float` and `double` values are carried as rationals: the
embedded code only copies and stores them, and the cell setters compare an
angle with 90.  The caller's C arrays are maps
from index to element.
-/

namespace chemfiles

/-! ## Topology.hpp: bond -/

/-- The `bond` struct; `_data` is its `std::array<size_t, 2>`. -/
structure bond where
  _data : Nat × Nat
  deriving DecidableEq, Repr

/-- The two stores of the constructor `bond::bond`:
`_data[0] = std::min(first, second); _data[1] = std::max(first, second);`. -/
def bond.stored (first second : Nat) : bond :=
  ⟨(min first second, max first second)⟩

/-- The constructor `bond::bond(first, second)` (named `new` here, as `bond.bond`
would shadow the type inside its own namespace): `assert(first != second)`,
then the two stores. -/
def bond.new (first second : Nat) : Option bond :=
  if first ≠ second then some (bond.stored first second) else none

/-- The indexing `operator[]` of `bond`, on the two valid positions. -/
def bond.index (b : bond) (i : Fin 2) : Nat :=
  match i with
  | 0 => b._data.1
  | 1 => b._data.2

/-- The comparison `bond::operator==`:
`_data[0] == other[0] && _data[1] == other[1]`. -/
def bond.eq (b other : bond) : Bool :=
  b._data.1 == other.index 0 && b._data.2 == other.index 1

/-! ## Topology.hpp: angle -/

/-- The `angle` struct; `_data` is its `std::array<size_t, 3>`. -/
structure angle where
  _data : Nat × Nat × Nat
  deriving DecidableEq, Repr

/-- The three stores of the constructor `angle::angle`:
`_data[0] = std::min(first, last); _data[1] = midle;
_data[2] = std::max(first, last);`. -/
def angle.stored (first midle last : Nat) : angle :=
  ⟨(min first last, midle, max first last)⟩

/-- The constructor `angle::angle(first, midle, last)`:
`assert(first != last); assert(first != midle);`, then the three stores. -/
def angle.new (first midle last : Nat) : Option angle :=
  if first ≠ last then
    if first ≠ midle then some (angle.stored first midle last) else none
  else none

/-- The indexing `operator[]` of `angle`, on the three valid positions. -/
def angle.index (a : angle) (i : Fin 3) : Nat :=
  match i with
  | 0 => a._data.1
  | 1 => a._data.2.1
  | 2 => a._data.2.2

/-- The comparison `angle::operator==`. -/
def angle.eq (a other : angle) : Bool :=
  a._data.1 == other.index 0 && a._data.2.1 == other.index 1 &&
    a._data.2.2 == other.index 2

/-! ## Topology.hpp: dihedral -/

/-- The `dihedral` struct; `_data` is its `std::array<size_t, 4>`. -/
structure dihedral where
  _data : Nat × Nat × Nat × Nat
  deriving DecidableEq, Repr

/-- The stores of the constructor `dihedral::dihedral`: the four indices as
given when `std::max(first, second) < std::max(third, fourth)`, and in
reverse order otherwise. -/
def dihedral.stored (first second third fourth : Nat) : dihedral :=
  if max first second < max third fourth then
    ⟨(first, second, third, fourth)⟩
  else
    ⟨(fourth, third, second, first)⟩

/-- The constructor `dihedral::dihedral(first, second, third, fourth)`:
`assert(first != second); assert(second != third); assert(third != fourth);`,
then the stores. -/
def dihedral.new (first second third fourth : Nat) : Option dihedral :=
  if first ≠ second then
    if second ≠ third then
      if third ≠ fourth then some (dihedral.stored first second third fourth)
      else none
    else none
  else none

/-- The indexing `operator[]` of `dihedral`, on the four valid positions. -/
def dihedral.index (d : dihedral) (i : Fin 4) : Nat :=
  match i with
  | 0 => d._data.1
  | 1 => d._data.2.1
  | 2 => d._data.2.2.1
  | 3 => d._data.2.2.2

/-- The comparison `dihedral::operator==`. -/
def dihedral.eq (d other : dihedral) : Bool :=
  d._data.1 == other.index 0 && d._data.2.1 == other.index 1 &&
    d._data.2.2.1 == other.index 2 && d._data.2.2.2 == other.index 3

/-! ## Exceptions and the C status codes (cerrors.hpp) -/

/-- The class of a thrown exception.  `FileError`, `MemoryError`,
`FormatError` and `Error` are the classes named by the catch clauses of
`CHFL_ERROR_WRAP_RETCODE`, `std_exception` is any other `std::exception`.
`InvalidArgument`, `ConfigurationError`, `FormatNotFound`, `InvalidCell`,
`InvalidState` and `OutOfRange` are failure kinds named by the specification
only: no `throw` of the embedded sources constructs them. -/
inductive ErrorClass where
  | Error
  | FileError
  | MemoryError
  | FormatError
  | std_exception
  | InvalidArgument
  | ConfigurationError
  | FormatNotFound
  | InvalidCell
  | InvalidState
  | OutOfRange
  deriving DecidableEq, Repr

/-- A thrown exception: its class and the text `what()` returns. -/
structure Exception where
  cls : ErrorClass
  what : String
  deriving DecidableEq, Repr

/-- The `CAPIStatus` struct, reduced to its mutable member `last_error` (the
`messages` table is constant). -/
structure CAPIStatus where
  last_error : String
  deriving DecidableEq, Repr

/-- The enumerator `CAPIStatus::SUCESS`. -/
def CAPIStatus.SUCESS : Int := 0
/-- The enumerator `CAPIStatus::STD_ERROR`. -/
def CAPIStatus.STD_ERROR : Int := 1
/-- The enumerator `CAPIStatus::CHEMHARP`. -/
def CAPIStatus.CHEMHARP : Int := 2
/-- The enumerator `CAPIStatus::MEMORY`. -/
def CAPIStatus.MEMORY : Int := 3
/-- The enumerator `CAPIStatus::FILE`. -/
def CAPIStatus.FILE : Int := 4
/-- The enumerator `CAPIStatus::FORMAT`. -/
def CAPIStatus.FORMAT : Int := 5
/-- The enumerator `CAPIStatus::LAST`, the number of codes. -/
def CAPIStatus.LAST : Int := 6

/-- The catch clauses of `CHFL_ERROR_WRAP_RETCODE`, in order: `FileError`,
`MemoryError`, `FormatError`, then `chemfiles::Error` for every other failure
of the library, then `std::exception`.  The kinds that only the specification
names are failures of the library, so the `chemfiles::Error` clause takes
them. -/
def catch_code : ErrorClass → Int
  | .FileError => CAPIStatus.FILE
  | .MemoryError => CAPIStatus.MEMORY
  | .FormatError => CAPIStatus.FORMAT
  | .Error => CAPIStatus.CHEMHARP
  | .InvalidArgument => CAPIStatus.CHEMHARP
  | .ConfigurationError => CAPIStatus.CHEMHARP
  | .FormatNotFound => CAPIStatus.CHEMHARP
  | .InvalidCell => CAPIStatus.CHEMHARP
  | .InvalidState => CAPIStatus.CHEMHARP
  | .OutOfRange => CAPIStatus.CHEMHARP
  | .std_exception => CAPIStatus.STD_ERROR

/-- The macro `CHFL_ERROR_WRAP_RETCODE(instructions)`: when the instructions
throw, `status.last_error` takes the exception's text and the code of the
matching catch clause is returned; otherwise `CAPIStatus::SUCESS` is
returned.  The instructions act on a state `σ`; a throw leaves it as it was.
(The `LOG(ERROR)` line writes to the log stream, which is not part of the
embedded state.) -/
def CHFL_ERROR_WRAP_RETCODE {σ : Type} (status : CAPIStatus) (s : σ)
    (instructions : σ → Except Exception σ) : Int × CAPIStatus × σ :=
  match instructions s with
  | .error e => (catch_code e.cls, { status with last_error := e.what }, s)
  | .ok s' => (CAPIStatus.SUCESS, status, s')

/-! ## Atom.hpp, Topology.hpp: Atom, Connectivity, Topology -/

/-- The enum `Atom::AtomType`. -/
inductive AtomType where
  | ELEMENT
  | CORSE_GRAIN
  | DUMMY
  | UNDEFINED
  deriving DecidableEq, Repr

/-- The data members of class `Atom`.  The two `float` members are carried as
rationals; no arithmetic on them is embedded. -/
structure Atom where
  _name : String
  _mass : Rat
  _charge : Rat
  _type : AtomType
  deriving DecidableEq, Repr

/-- The data members of class `Connectivity`.  Each `std::unordered_set` is a
list in insertion order; the set's uniqueness is kept by the operations,
which compare with `operator==`. -/
structure Connectivity where
  _bonds : List bond
  _angles : List angle
  _dihedrals : List dihedral
  uptodate : Bool
  deriving DecidableEq, Repr

/-- Modelled from the spec: `Connectivity::add_bond`, which is defined in
`Topology.cpp`, a file that is not among the sources.  The specification:
"fails with InvalidArgument if `i==j`; canonicalizes, inserts; marks derived
caches stale; no effect if the bond already exists (idempotent)".  The
specification gives the failure no message text; the empty text stands for
it. -/
def Connectivity.add_bond (c : Connectivity) (i j : Nat) :
    Except Exception Connectivity :=
  if i = j then
    .error ⟨ErrorClass.InvalidArgument, ""⟩
  else if c._bonds.any (fun b => b.eq (bond.stored i j)) then
    .ok c
  else
    .ok { c with _bonds := c._bonds ++ [bond.stored i j], uptodate := false }

/-- The data members of class `Topology`. -/
structure Topology where
  _templates : List Atom
  _atoms : List Nat
  _connect : Connectivity
  deriving DecidableEq, Repr

/-- `Topology::add_bond(atom_i, atom_j)`: `_connect.add_bond(atom_i, atom_j);`. -/
def Topology.add_bond (t : Topology) (atom_i atom_j : Nat) :
    Except Exception Topology :=
  match t._connect.add_bond atom_i atom_j with
  | .error e => .error e
  | .ok c => .ok { t with _connect := c }

/-- `chfl_topology_add_bond(topology, i, j)` of capi.cpp:
`CHFL_ERROR_WRAP_RETCODE(topology->add_bond(i, j);)`.  Returns the status
code, the global `status` and the topology after the call. -/
def chfl_topology_add_bond (status : CAPIStatus) (topology : Topology)
    (i j : Nat) : Int × CAPIStatus × Topology :=
  CHFL_ERROR_WRAP_RETCODE status topology (fun t => t.add_bond i j)

/-! ## TrajectoryFactory.cpp: the format registry -/

/-- The struct `trajectory_builder_t`, declared in `TrajectoryFactory.hpp`
(not among the sources): the pair of creator function pointers that
`register_all_formats` builds as `{new_format<T>, new_file<...>}`.  A function
pointer is a number, `0` the null pointer. -/
structure trajectory_builder_t where
  format_creator : Nat
  file_creator : Nat
  deriving DecidableEq, Repr

/-- The type `trajectory_map_t`, declared in `TrajectoryFactory.hpp` (not
among the sources): a map from `std::string` to `trajectory_builder_t`, here
the list of its entries, at most one per key. -/
structure trajectory_map_t where
  entries : List (String × trajectory_builder_t)
  deriving DecidableEq, Repr

/-- The call `m.find(key)`: the value bound to `key`, or `none` for `m.end()`. -/
def trajectory_map_t.find (m : trajectory_map_t) (key : String) :
    Option trajectory_builder_t :=
  m.entries.lookup key

/-- The call `m.emplace(key, tb)`: inserts the entry unless `key` is bound. -/
def trajectory_map_t.emplace (m : trajectory_map_t) (key : String)
    (tb : trajectory_builder_t) : trajectory_map_t :=
  match m.find key with
  | some _ => m
  | none => ⟨m.entries ++ [(key, tb)]⟩

/-- The subscript `m[key]`: the value bound to `key`; an unbound key is first
bound to a value-initialised builder (two null pointers).  Returns the value
and the map after the call. -/
def trajectory_map_t.subscript (m : trajectory_map_t) (key : String) :
    trajectory_builder_t × trajectory_map_t :=
  match m.find key with
  | some tb => (tb, m)
  | none => (⟨0, 0⟩, ⟨m.entries ++ [(key, ⟨0, 0⟩)]⟩)

/-- The data members of class `TrajectoryFactory`. -/
structure TrajectoryFactory where
  formats : trajectory_map_t
  extensions : trajectory_map_t
  deriving DecidableEq, Repr

/-- `TrajectoryFactory::format(name)`: throws `FormatError` when
`formats.find(name) == formats.end()`, else returns `formats[name]`.  Returns
the builder and the factory after the call. -/
def TrajectoryFactory.format (f : TrajectoryFactory) (name : String) :
    Except Exception (trajectory_builder_t × TrajectoryFactory) :=
  if f.formats.find name = none then
    .error ⟨ErrorClass.FormatError, "Can not find the format \"" ++ name ++ "\"."⟩
  else
    .ok ((f.formats.subscript name).1,
      { f with formats := (f.formats.subscript name).2 })

/-- `TrajectoryFactory::by_extension(ext)`: throws `FormatError` when
`extensions.find(ext) == extensions.end()`, else returns `extensions[ext]`.
Returns the builder and the factory after the call. -/
def TrajectoryFactory.by_extension (f : TrajectoryFactory) (ext : String) :
    Except Exception (trajectory_builder_t × TrajectoryFactory) :=
  if f.extensions.find ext = none then
    .error ⟨ErrorClass.FormatError,
      "Can not find a format associated with the \"" ++ ext ++ "\" extension."⟩
  else
    .ok ((f.extensions.subscript ext).1,
      { f with extensions := (f.extensions.subscript ext).2 })

/-- `TrajectoryFactory::register_format(name, tb)`: throws `FormatError` when
`formats.find(name) != formats.end()`, else `formats.emplace(name, tb)`. -/
def TrajectoryFactory.register_format (f : TrajectoryFactory) (name : String)
    (tb : trajectory_builder_t) : Except Exception TrajectoryFactory :=
  if f.formats.find name ≠ none then
    .error ⟨ErrorClass.FormatError,
      "The name \"" ++ name ++ "\" is already associated with a format."⟩
  else
    .ok { f with formats := f.formats.emplace name tb }

/-- `TrajectoryFactory::register_extension(ext, tb)`: throws `FormatError` when
`extensions.find(ext) != extensions.end()`, else `extensions.emplace(ext, tb)`. -/
def TrajectoryFactory.register_extension (f : TrajectoryFactory) (ext : String)
    (tb : trajectory_builder_t) : Except Exception TrajectoryFactory :=
  if f.extensions.find ext ≠ none then
    .error ⟨ErrorClass.FormatError,
      "The extension \"" ++ ext ++ "\" is already associated with a format."⟩
  else
    .ok { f with extensions := f.extensions.emplace ext tb }

/-- `TrajectoryFactory::register_format(name, tb)` with the factory object
followed on both paths: the exception thrown, if any, and the data members of
the factory when control leaves the function.  The test
`formats.find(name) != formats.end()` only reads the map, and the `throw`
leaves the function before `formats.emplace(name, tb)`, the one statement of
the body that writes a member, is reached. -/
def TrajectoryFactory.register_format_run (f : TrajectoryFactory) (name : String)
    (tb : trajectory_builder_t) : Option Exception × TrajectoryFactory :=
  if f.formats.find name ≠ none then
    (some ⟨ErrorClass.FormatError,
      "The name \"" ++ name ++ "\" is already associated with a format."⟩, f)
  else
    (none, { f with formats := f.formats.emplace name tb })

/-- `TrajectoryFactory::register_extension(ext, tb)` with the factory object
followed on both paths: the exception thrown, if any, and the data members of
the factory when control leaves the function.  The `throw` leaves the function
before `extensions.emplace(ext, tb)` is reached. -/
def TrajectoryFactory.register_extension_run (f : TrajectoryFactory) (ext : String)
    (tb : trajectory_builder_t) : Option Exception × TrajectoryFactory :=
  if f.extensions.find ext ≠ none then
    (some ⟨ErrorClass.FormatError,
      "The extension \"" ++ ext ++ "\" is already associated with a format."⟩, f)
  else
    (none, { f with extensions := f.extensions.emplace ext tb })

/-- `TrajectoryFactory::format(name)` with the factory object followed on both
paths: what the call throws or returns, and the data members of the factory
when control leaves the function.  The test `formats.find(name) ==
formats.end()` only reads the map; the subscript `formats[name]`, which can
insert, is evaluated on the returning path only, and the map it leaves is the
map of the factory after the call. -/
def TrajectoryFactory.format_run (f : TrajectoryFactory) (name : String) :
    Except Exception trajectory_builder_t × TrajectoryFactory :=
  if f.formats.find name = none then
    (.error ⟨ErrorClass.FormatError, "Can not find the format \"" ++ name ++ "\"."⟩, f)
  else
    (.ok (f.formats.subscript name).1,
      { f with formats := (f.formats.subscript name).2 })

/-- `TrajectoryFactory::by_extension(ext)` with the factory object followed on
both paths: what the call throws or returns, and the data members of the
factory when control leaves the function.  The subscript `extensions[ext]` is
evaluated on the returning path only. -/
def TrajectoryFactory.by_extension_run (f : TrajectoryFactory) (ext : String) :
    Except Exception trajectory_builder_t × TrajectoryFactory :=
  if f.extensions.find ext = none then
    (.error ⟨ErrorClass.FormatError,
      "Can not find a format associated with the \"" ++ ext ++ "\" extension."⟩, f)
  else
    (.ok (f.extensions.subscript ext).1,
      { f with extensions := (f.extensions.subscript ext).2 })

/-! ## Sequences of calls -/

/-- A caller making `add_bond` calls on one topology, one per listed index
pair, in order.  A call that throws leaves the topology as it was. -/
def Topology.add_bonds (t : Topology) : List (Nat × Nat) → Topology
  | [] => t
  | p :: rest =>
    match t.add_bond p.1 p.2 with
    | .ok t' => t'.add_bonds rest
    | .error _ => t.add_bonds rest

/-- Every stored bond has its smaller index first: in particular no stored
bond joins an atom to itself. -/
def Topology.no_self_bond (t : Topology) : Prop :=
  ∀ b ∈ t._connect._bonds, b.index 0 < b.index 1

/-- One registration call on the factory. -/
inductive registry_call where
  | register_format (name : String) (tb : trajectory_builder_t)
  | register_extension (ext : String) (tb : trajectory_builder_t)
  deriving DecidableEq, Repr

/-- A caller making the listed registration calls on one factory, in order.
A call that throws leaves the factory as it was. -/
def TrajectoryFactory.calls (f : TrajectoryFactory) :
    List registry_call → TrajectoryFactory
  | [] => f
  | .register_format name tb :: rest =>
    match f.register_format name tb with
    | .ok f' => f'.calls rest
    | .error _ => f.calls rest
  | .register_extension ext tb :: rest =>
    match f.register_extension ext tb with
    | .ok f' => f'.calls rest
    | .error _ => f.calls rest

/-! ## cerrors.hpp, capi.cpp: messages, wrappers, array getters -/

/-- The table `messages` as the constructor `CAPIStatus::CAPIStatus` fills
it, entry `i` being `messages[i]`; it has `LAST` entries. -/
def CAPIStatus.messages : List String :=
  ["Operation was sucessfull",
   "Error in C++ runtime. Use chfl_last_error for more informations.",
   "Error in chemfiles library. Use chfl_last_error for more informations.",
   "Memory error.",
   "Error while reading a file.",
   "Error while reading a format."]

/-- `CAPIStatus::message(i)`: `messages[i]` when `i >= 0 && i < LAST`, the
empty string otherwise. -/
def CAPIStatus.message (i : Int) : String :=
  if 0 ≤ i ∧ i < CAPIStatus.LAST then
    match CAPIStatus.messages[i.toNat]? with
    | some m => m
    | none => ""
  else ""

/-- `chfl_strerror(code)`: `status.message(code)`. -/
def chfl_strerror (code : Int) : String :=
  CAPIStatus.message code

/-- `chfl_last_error()`: `status.last_error.c_str()`. -/
def chfl_last_error (status : CAPIStatus) : String :=
  status.last_error

/-- The macro `CHFL_ERROR_WRAP(instructions)` of the handle-returning
functions: when the instructions throw, `status.last_error` takes the
exception's text and control goes to the `error` label; the function then
returns its handle variable in either case. -/
def CHFL_ERROR_WRAP {σ : Type} (status : CAPIStatus) (s : σ)
    (instructions : σ → Except Exception σ) : CAPIStatus × σ :=
  match instructions s with
  | .error e => ({ status with last_error := e.what }, s)
  | .ok s' => (status, s')

/-- The loop `for (size_t i = 0; i < n; i++) data[i] = row(items[i]);` of the
array getters, on the caller's array `data` seen as a map from row number to
row.  (`items[i]` is in range whenever the loop is reached, as `n` is then
`items.size()`.) -/
def write_rows {α β : Type} (items : List β) (row : β → α) (n : Nat)
    (data : Nat → α) : Nat → α :=
  (List.range n).foldl
    (fun d i =>
      match items[i]? with
      | some x => Function.update d i (row x)
      | none => d)
    data

/-- `chfl_topology_bonds_count`: `*nbonds = topology->bonds().size();`, given
the vector `bonds` that `topology->bonds()` returns (`Topology::bonds` is
defined in `Topology.cpp`, not among the sources).  Returns the status code,
the global `status` and `*nbonds`. -/
def chfl_topology_bonds_count (status : CAPIStatus) (bonds : List bond)
    (nbonds : Nat) : Int × CAPIStatus × Nat :=
  CHFL_ERROR_WRAP_RETCODE status nbonds (fun _ => .ok bonds.length)

/-- `chfl_topology_angles_count`, given the vector `topology->angles()`. -/
def chfl_topology_angles_count (status : CAPIStatus) (angles : List angle)
    (nangles : Nat) : Int × CAPIStatus × Nat :=
  CHFL_ERROR_WRAP_RETCODE status nangles (fun _ => .ok angles.length)

/-- `chfl_topology_dihedrals_count`, given the vector
`topology->dihedrals()`. -/
def chfl_topology_dihedrals_count (status : CAPIStatus)
    (dihedrals : List dihedral) (ndihedrals : Nat) : Int × CAPIStatus × Nat :=
  CHFL_ERROR_WRAP_RETCODE status ndihedrals (fun _ => .ok dihedrals.length)

/-- `chfl_topology_bonds(topology, data, nbonds)`, given the vector `bonds`
that `topology->bonds()` returns: the size check, which records its message
and returns `MEMORY`, then the wrapped copy loop.  Returns the status code,
the global `status` and the array `data` after the call. -/
def chfl_topology_bonds (status : CAPIStatus) (bonds : List bond)
    (data : Nat → Nat × Nat) (nbonds : Nat) :
    Int × CAPIStatus × (Nat → Nat × Nat) :=
  if nbonds ≠ bonds.length then
    (CAPIStatus.MEMORY,
      { status with last_error := "Wrong data size in function 'chfl_topology_bonds'." },
      data)
  else
    CHFL_ERROR_WRAP_RETCODE status data
      (fun d => .ok (write_rows bonds (fun b => (b.index 0, b.index 1)) nbonds d))

/-- `chfl_topology_angles(topology, data, nangles)`, given the vector
`topology->angles()`. -/
def chfl_topology_angles (status : CAPIStatus) (angles : List angle)
    (data : Nat → Nat × Nat × Nat) (nangles : Nat) :
    Int × CAPIStatus × (Nat → Nat × Nat × Nat) :=
  if nangles ≠ angles.length then
    (CAPIStatus.MEMORY,
      { status with last_error := "Wrong data size in function 'chfl_topology_angles'." },
      data)
  else
    CHFL_ERROR_WRAP_RETCODE status data
      (fun d => .ok (write_rows angles
        (fun a => (a.index 0, a.index 1, a.index 2)) nangles d))

/-- `chfl_topology_dihedrals(topology, data, ndihedrals)`, given the vector
`topology->dihedrals()`.  The message of its size check names
`chfl_topology_bonds`, as in the source. -/
def chfl_topology_dihedrals (status : CAPIStatus) (dihedrals : List dihedral)
    (data : Nat → Nat × Nat × Nat × Nat) (ndihedrals : Nat) :
    Int × CAPIStatus × (Nat → Nat × Nat × Nat × Nat) :=
  if ndihedrals ≠ dihedrals.length then
    (CAPIStatus.MEMORY,
      { status with last_error := "Wrong data size in function 'chfl_topology_bonds'." },
      data)
  else
    CHFL_ERROR_WRAP_RETCODE status data
      (fun d => .ok (write_rows dihedrals
        (fun x => (x.index 0, x.index 1, x.index 2, x.index 3)) ndihedrals d))

/-- The instructions that `chfl_topology_bonds` passes to
`CHFL_ERROR_WRAP_RETCODE`: the copy loop over `topology->bonds()`, acting on
the caller's array. -/
def chfl_topology_bonds_instructions (bonds : List bond) (nbonds : Nat)
    (data : Nat → Nat × Nat) : Except Exception (Nat → Nat × Nat) :=
  .ok (write_rows bonds (fun b => (b.index 0, b.index 1)) nbonds data)

/-- The instructions that `chfl_topology_angles` passes to
`CHFL_ERROR_WRAP_RETCODE`. -/
def chfl_topology_angles_instructions (angles : List angle) (nangles : Nat)
    (data : Nat → Nat × Nat × Nat) : Except Exception (Nat → Nat × Nat × Nat) :=
  .ok (write_rows angles (fun a => (a.index 0, a.index 1, a.index 2)) nangles data)

/-- The instructions that `chfl_topology_dihedrals` passes to
`CHFL_ERROR_WRAP_RETCODE`. -/
def chfl_topology_dihedrals_instructions (dihedrals : List dihedral)
    (ndihedrals : Nat) (data : Nat → Nat × Nat × Nat × Nat) :
    Except Exception (Nat → Nat × Nat × Nat × Nat) :=
  .ok (write_rows dihedrals
    (fun x => (x.index 0, x.index 1, x.index 2, x.index 3)) ndihedrals data)

/-! ## capi.cpp: sequences of C API calls and the last error -/

/-- One call of the C API, as far as the last error is concerned: a
status-returning function (its body inside `CHFL_ERROR_WRAP_RETCODE`) or a
handle-returning function (its body inside `CHFL_ERROR_WRAP`), given what
its wrapped instructions do, or one of the three array getters, which check
the array size before their wrapped body. -/
inductive capi_call where
  | status_returning (instructions : Except Exception Unit)
  | handle_returning (instructions : Except Exception Unit)
  | topology_bonds (bonds : List bond) (data : Nat → Nat × Nat) (nbonds : Nat)
  | topology_angles (angles : List angle) (data : Nat → Nat × Nat × Nat)
      (nangles : Nat)
  | topology_dihedrals (dihedrals : List dihedral)
      (data : Nat → Nat × Nat × Nat × Nat) (ndihedrals : Nat)

/-- The call run on the global `status`: the status code it returns (`none`
for a handle-returning function) and the global `status` after it. -/
def capi_call.run (status : CAPIStatus) : capi_call → Option Int × CAPIStatus
  | .status_returning instructions =>
    let r := CHFL_ERROR_WRAP_RETCODE status () (fun _ => instructions)
    (some r.1, r.2.1)
  | .handle_returning instructions =>
    (none, (CHFL_ERROR_WRAP status () (fun _ => instructions)).1)
  | .topology_bonds bonds data nbonds =>
    let r := chfl_topology_bonds status bonds data nbonds
    (some r.1, r.2.1)
  | .topology_angles angles data nangles =>
    let r := chfl_topology_angles status angles data nangles
    (some r.1, r.2.1)
  | .topology_dihedrals dihedrals data ndihedrals =>
    let r := chfl_topology_dihedrals status dihedrals data ndihedrals
    (some r.1, r.2.1)

/-- The text of the failure a call ends in, `none` when it does not fail: the
`what()` of the exception its instructions throw, or the message of a failed
array size check. -/
def capi_call.failure : capi_call → Option String
  | .status_returning (.error e) => some e.what
  | .status_returning (.ok _) => none
  | .handle_returning (.error e) => some e.what
  | .handle_returning (.ok _) => none
  | .topology_bonds bonds _ nbonds =>
    if nbonds ≠ bonds.length then
      some "Wrong data size in function 'chfl_topology_bonds'."
    else none
  | .topology_angles angles _ nangles =>
    if nangles ≠ angles.length then
      some "Wrong data size in function 'chfl_topology_angles'."
    else none
  | .topology_dihedrals dihedrals _ ndihedrals =>
    if ndihedrals ≠ dihedrals.length then
      some "Wrong data size in function 'chfl_topology_bonds'."
    else none

/-- The global `status` after the listed calls, made in order. -/
def capi_calls (status : CAPIStatus) (calls : List capi_call) : CAPIStatus :=
  calls.foldl (fun st c => (c.run st).2) status

/-- The failure text of the last listed call that fails, `none` when none of
them fails. -/
def most_recent_failure : List capi_call → Option String
  | [] => none
  | c :: rest =>
    match most_recent_failure rest with
    | some m => some m
    | none => c.failure

/-! ## UnitCell, Frame, Format -/

/-- Modelled from the spec: the enum `UnitCell::CellType` (`UnitCell.hpp` is
not among the sources).  The specification: "`type` ∈ {Orthorhombic,
Triclinic, Infinite}"; the enumerators are spelled as `tests/frame.cpp` and
`tests/c/chfl_cell.c` use them. -/
inductive CellType where
  | ORTHOROMBIC
  | TRICLINIC
  | INFINITE
  deriving DecidableEq, Repr

/-- Modelled from the spec: the data members of class `UnitCell`
(`UnitCell.hpp` is not among the sources).  The specification: "`a,b,c`
(lengths), `alpha,beta,gamma` (degrees), `type`, `periodic_x/y/z` (bool,
independent of type)".  The `double` members are carried as rationals. -/
structure UnitCell where
  _a : Rat
  _b : Rat
  _c : Rat
  _alpha : Rat
  _beta : Rat
  _gamma : Rat
  _type : CellType
  periodic_x : Bool
  periodic_y : Bool
  periodic_z : Bool
  deriving DecidableEq, Repr

/-- A `Vector3D`, three `float` coordinates, carried as rationals; only
copies of them are embedded. -/
abbrev Vector3D : Type := Rat × Rat × Rat

/-- Modelled from the spec: the data members of class `Frame` (`Frame.hpp` is
not among the sources).  The specification: "`step`, `positions` (ordered
3-vectors, length N), `velocities` (optional, same length when present),
`topology`, `cell`". -/
structure Frame where
  _step : Nat
  _positions : List Vector3D
  _velocities : List Vector3D
  _topology : Topology
  _cell : UnitCell
  deriving DecidableEq, Repr

/-- Modelled from the spec: `Frame::natoms()`, defined in `Frame.cpp`, which
is not among the sources.  The specification: "`positions` (ordered
3-vectors, length N)"; `tests/frame.cpp` checks `frame.natoms() == 15` after
`frame.resize(15)` on a frame whose topology has one atom and which has no
velocities. -/
def Frame.natoms (frame : Frame) : Nat :=
  frame._positions.length

/-- The call `v.resize(n)` on a `std::vector<Vector3D>`: the first `n`
elements are kept and the vector is filled up to `n` elements with
value-initialised ones, `init` (`Vector3D` is declared in a header that is
not among the sources). -/
def Array3D_resize (v : List Vector3D) (n : Nat) (init : Vector3D) :
    List Vector3D :=
  v.take n ++ List.replicate (n - v.length) init

/-- The loop `for (size_t i = 0; i < n; i++) { v[i][0] = data[i][0];
v[i][1] = data[i][1]; v[i][2] = data[i][2]; }` of the two array setters.
`none` is undefined behaviour: an index past the end of `v` or of the
caller's array `data`. -/
def copy_rows (data : List Vector3D) (n : Nat) (v : List Vector3D) :
    Option (List Vector3D) :=
  (List.range n).foldlM
    (fun w i =>
      match data[i]? with
      | some row => if i < w.length then some (w.set i row) else none
      | none => none)
    v

/-- `chfl_frame_set_positions(frame, data, size)` of capi.cpp:
`positions.resize(size)` on the frame's own positions, then the copy loop up
to `frame->natoms()`, inside `CHFL_ERROR_WRAP_RETCODE`.  `none` is undefined
behaviour in the loop. -/
def chfl_frame_set_positions (init : Vector3D) (status : CAPIStatus)
    (frame : Frame) (data : List Vector3D) (size : Nat) :
    Option (Int × CAPIStatus × Frame) :=
  let resized : Frame :=
    { frame with _positions := Array3D_resize frame._positions size init }
  match copy_rows data resized.natoms resized._positions with
  | none => none
  | some positions =>
    some (CHFL_ERROR_WRAP_RETCODE status frame
      (fun _ => .ok { resized with _positions := positions }))

/-- `chfl_frame_set_velocities(frame, data, size)` of capi.cpp:
`velocities.resize(size)` on the frame's own velocities, then the copy loop
up to `frame->natoms()`, inside `CHFL_ERROR_WRAP_RETCODE`.  `none` is
undefined behaviour in the loop. -/
def chfl_frame_set_velocities (init : Vector3D) (status : CAPIStatus)
    (frame : Frame) (data : List Vector3D) (size : Nat) :
    Option (Int × CAPIStatus × Frame) :=
  let resized : Frame :=
    { frame with _velocities := Array3D_resize frame._velocities size init }
  match copy_rows data resized.natoms resized._velocities with
  | none => none
  | some velocities =>
    some (CHFL_ERROR_WRAP_RETCODE status frame
      (fun _ => .ok { resized with _velocities := velocities }))

/-- `Format::read_step(const size_t, Frame&)` of Format.cpp:
`throw FormatError("Not implemented function 'read_at'");`. -/
def Format.read_step (_step : Nat) (_frame : Frame) : Except Exception Frame :=
  .error ⟨ErrorClass.FormatError, "Not implemented function 'read_at'"⟩

/-- `Format::read(Frame&)` of Format.cpp:
`throw FormatError("Not implemented function 'read'");`. -/
def Format.read (_frame : Frame) : Except Exception Frame :=
  .error ⟨ErrorClass.FormatError, "Not implemented function 'read'"⟩

/-- `Format::write(const Frame&)` of Format.cpp:
`throw FormatError("Not implemented function 'write'");`.  The frame is
passed by const reference; the result is the frame after the call. -/
def Format.write (_frame : Frame) : Except Exception Frame :=
  .error ⟨ErrorClass.FormatError, "Not implemented function 'write'"⟩

/-! ## capi.cpp: atom names -/

/-- The call `s.substr(0, n)` on a `std::string`: its first `n` characters,
all of them when it has fewer. -/
def substr_from_start (s : String) (n : Nat) : String :=
  ⟨s.data.take n⟩

/-- The characters `strcpy` writes for the source `src.c_str()`: the
characters of `src` before its first NUL, then the terminating NUL. -/
def strcpy_written (src : String) : List Char :=
  src.data.takeWhile (fun c => c ≠ Char.ofNat 0) ++ [Char.ofNat 0]

/-- `strcpy(dest, src.c_str())`: the written characters go to `dest[0]`,
`dest[1]`, ...; `dest` is the memory from the pointer on, whatever the size
of the buffer allocated there. -/
def strcpy (dest : Nat → Char) (src : String) : Nat → Char :=
  fun i =>
    match (strcpy_written src)[i]? with
    | some c => c
    | none => dest i

/-- `chfl_atom_name(atom, name, buffsize)` of capi.cpp:
`auto tmp = atom->name(); strcpy(name, tmp.substr(0, buffsize).c_str());`
inside `CHFL_ERROR_WRAP_RETCODE`.  Returns the status code, the global
`status` and the memory at `name` after the call. -/
def chfl_atom_name (status : CAPIStatus) (atom : Atom) (name : Nat → Char)
    (buffsize : Nat) : Int × CAPIStatus × (Nat → Char) :=
  CHFL_ERROR_WRAP_RETCODE status name
    (fun buffer => .ok (strcpy buffer (substr_from_start atom._name buffsize)))

/-- `chfl_atom_full_name(atom, name, buffsize)` of capi.cpp, given the string
`full_name` that `atom->full_name()` returns (`Atom::full_name` is defined in
`Atom.cpp`, not among the sources):
`strcpy(name, tmp.substr(0, buffsize).c_str());` inside
`CHFL_ERROR_WRAP_RETCODE`. -/
def chfl_atom_full_name (status : CAPIStatus) (full_name : String)
    (name : Nat → Char) (buffsize : Nat) : Int × CAPIStatus × (Nat → Char) :=
  CHFL_ERROR_WRAP_RETCODE status name
    (fun buffer => .ok (strcpy buffer (substr_from_start full_name buffsize)))

/-- A frame without atoms: no positions, no velocities, an empty topology and
an infinite cell. -/
def Frame.without_atoms : Frame :=
  ⟨0, [], [], ⟨[], [], ⟨[], [], [], true⟩⟩,
    ⟨0, 0, 0, 90, 90, 90, CellType.INFINITE, true, true, true⟩⟩

/-! ## TrajectoryFactory.cpp: register_all_formats -/

/-- One format type `T` of `FORMATS_LIST` (a macro defined in a header that is
not among the sources), as `register_all_formats` uses it: `T::extension()`,
`T::name()` and the builder
`trajectory_builder_t{new_format<T>, new_file<typename T::file_t>}`. -/
structure builtin_format where
  extension : String
  name : String
  creator : trajectory_builder_t
  deriving DecidableEq, Repr

/-- `register_all_formats(formats, extensions, FormatList<T>)`, the overload
for one format: a non-empty extension is checked and emplaced, then a
non-empty name is checked and emplaced; a key that is already bound throws
`FormatError`.  Returns the two maps after the call.  (The maps are taken by
reference; a throw ends the constructor of the factory, maps included.) -/
def register_all_formats_one (formats extensions : trajectory_map_t)
    (T : builtin_format) : Except Exception (trajectory_map_t × trajectory_map_t) :=
  if T.extension ≠ "" ∧ extensions.find T.extension ≠ none then
    .error ⟨ErrorClass.FormatError,
      "The extension \"" ++ T.extension ++ "\" is already associated with a format."⟩
  else if T.name ≠ "" ∧ formats.find T.name ≠ none then
    .error ⟨ErrorClass.FormatError,
      "The name \"" ++ T.name ++ "\" is already associated with a format."⟩
  else
    .ok (if T.name ≠ "" then formats.emplace T.name T.creator else formats,
      if T.extension ≠ "" then extensions.emplace T.extension T.creator
      else extensions)

/-- `register_all_formats(formats, extensions, FormatList<T, S, Types...>)`:
the first format is registered, then the rest of the list.  (The source has
no overload for an empty list; the empty list registers nothing.) -/
def register_all_formats (formats extensions : trajectory_map_t) :
    List builtin_format → Except Exception (trajectory_map_t × trajectory_map_t)
  | [] => .ok (formats, extensions)
  | T :: rest =>
    match register_all_formats_one formats extensions T with
    | .error e => .error e
    | .ok (formats', extensions') => register_all_formats formats' extensions' rest

/-- The constructor `TrajectoryFactory::TrajectoryFactory()`: both maps start
empty, then `register_all_formats(formats, extensions, formats_list())`. -/
def TrajectoryFactory.new (formats_list : List builtin_format) :
    Except Exception TrajectoryFactory :=
  match register_all_formats ⟨[]⟩ ⟨[]⟩ formats_list with
  | .error e => .error e
  | .ok (formats, extensions) => .ok ⟨formats, extensions⟩

/-! ## Topology.hpp: natoms, resize, operator[] -/

/-- `Topology::natoms()`: `_atoms.size()`. -/
def Topology.natoms (t : Topology) : Nat :=
  t._atoms.length

/-- `Topology::natom_types()`: `_templates.size()`. -/
def Topology.natom_types (t : Topology) : Nat :=
  t._templates.length

/-- `Topology::resize(natoms)`: `_atoms.resize(natoms)` on the
`std::vector<size_t>`, which keeps the first `natoms` entries and fills up
with value-initialised entries, that is with `0`. -/
def Topology.resize (t : Topology) (natoms : Nat) : Topology :=
  { t with _atoms := t._atoms.take natoms ++ List.replicate (natoms - t._atoms.length) 0 }

/-- `Topology::operator[](index)`: `_templates[_atoms[index]]`.  `none` is
undefined behaviour: `index` past the end of `_atoms`, or the entry past the
end of `_templates`. -/
def Topology.subscript (t : Topology) (index : Nat) : Option Atom :=
  match t._atoms[index]? with
  | some i => t._templates[i]?
  | none => none

/-- Every entry of the positional index list `_atoms` is a valid index into
the template list `_templates`. -/
def Topology.indexes_valid (t : Topology) : Prop :=
  ∀ i ∈ t._atoms, i < t._templates.length

/-! ## Frame: raw_positions, raw_velocities -/

/-- Modelled from the spec: `Frame::has_velocities()`, defined in `Frame.cpp`,
which is not among the sources.  The specification: "`velocities` (optional,
same length when present)": the velocities are present when the vector is
not empty. -/
def Frame.has_velocities (frame : Frame) : Bool :=
  !frame._velocities.isEmpty

/-- Modelled from the spec: `Frame::raw_positions(data, size)`, defined in
`Frame.cpp`, which is not among the sources.  The specification:
"MemoryError (caller-provided buffer size mismatch at the marshaling
boundary)" and "violated states are representable but rejected by
buffer-marshaling operations that require matching sizes"; `tests/frame.cpp`:
`raw_positions(mat, 3)` throws `MemoryError` on a frame of another size, and
`raw_positions(mat, 15)` on a frame of 15 atoms fills `mat` with the
positions.  The specification gives the failure no message text; the empty
text stands for it. -/
def Frame.raw_positions (frame : Frame) (data : Nat → Vector3D) (size : Nat) :
    Except Exception (Nat → Vector3D) :=
  if size ≠ frame.natoms then
    .error ⟨ErrorClass.MemoryError, ""⟩
  else
    .ok (write_rows frame._positions (fun v => v) size data)

/-- Modelled from the spec: `Frame::raw_velocities(data, size)`, defined in
`Frame.cpp`, which is not among the sources.  As `raw_positions` on a frame
that has velocities; `tests/frame.cpp` on a frame without velocities: "This
is not throwing, but only filling the array with zeroes", and
`raw_velocities(mat, 3)` throws `MemoryError` once the frame has velocities
for another number of atoms. -/
def Frame.raw_velocities (frame : Frame) (data : Nat → Vector3D) (size : Nat) :
    Except Exception (Nat → Vector3D) :=
  if frame.has_velocities = false then
    .ok (write_rows (List.replicate size ((0 : Rat), (0 : Rat), (0 : Rat)))
      (fun v => v) size data)
  else if size ≠ frame.natoms then
    .error ⟨ErrorClass.MemoryError, ""⟩
  else
    .ok (write_rows frame._velocities (fun v => v) size data)

/-- `chfl_frame_positions(frame, data, size)` of capi.cpp:
`frame->raw_positions(data, size);` inside `CHFL_ERROR_WRAP_RETCODE`.
Returns the status code, the global `status` and the array `data` after the
call. -/
def chfl_frame_positions (status : CAPIStatus) (frame : Frame)
    (data : Nat → Vector3D) (size : Nat) : Int × CAPIStatus × (Nat → Vector3D) :=
  CHFL_ERROR_WRAP_RETCODE status data (fun d => frame.raw_positions d size)

/-- `chfl_frame_velocities(frame, data, size)` of capi.cpp:
`frame->raw_velocities(data, size);` inside `CHFL_ERROR_WRAP_RETCODE`. -/
def chfl_frame_velocities (status : CAPIStatus) (frame : Frame)
    (data : Nat → Vector3D) (size : Nat) : Int × CAPIStatus × (Nat → Vector3D) :=
  CHFL_ERROR_WRAP_RETCODE status data (fun d => frame.raw_velocities d size)

/-! ## Connectivity: recalculate -/

/-- The neighbours of atom `m` in a bond set: the other end of every bond
that has `m` at one end. -/
def neighbours (bonds : List bond) (m : Nat) : List Nat :=
  bonds.filterMap
    (fun b =>
      if b.index 0 = m then some (b.index 1)
      else if b.index 1 = m then some (b.index 0)
      else none)

/-- The atoms of a bond set: the two ends of every bond. -/
def bonded_atoms (bonds : List bond) : List Nat :=
  bonds.flatMap (fun b => [b.index 0, b.index 1])

/-- Modelled from the spec: the angles that `Connectivity::recalculate`
(defined in `Topology.cpp`, not among the sources) derives.  The
specification: "for every atom `m`, for every unordered pair of distinct
neighbors `{a,b}` of `m` (both connected to `m` by a bond), emit
`angle(a,m,b)`", as a set: equal angles are kept once. -/
def derive_angles (bonds : List bond) : List angle :=
  ((bonded_atoms bonds).flatMap
    (fun m =>
      (neighbours bonds m).flatMap
        (fun a =>
          ((neighbours bonds m).filter (fun b => a ≠ b)).map
            (fun b => angle.stored a m b)))).dedup

/-- Modelled from the spec: the dihedrals that `Connectivity::recalculate`
derives.  The specification: "for every bond `(b,c)`, for every neighbor `a`
of `b` with `a≠c`, for every neighbor `d` of `c` with `d≠b` and `d≠a`, emit
`dihedral(a,b,c,d)`", as a set: equal dihedrals are kept once. -/
def derive_dihedrals (bonds : List bond) : List dihedral :=
  (bonds.flatMap
    (fun bc =>
      ((neighbours bonds (bc.index 0)).filter (fun a => a ≠ bc.index 1)).flatMap
        (fun a =>
          ((neighbours bonds (bc.index 1)).filter
              (fun d => d ≠ bc.index 0 ∧ d ≠ a)).map
            (fun d => dihedral.stored a (bc.index 0) (bc.index 1) d)))).dedup

/-- Modelled from the spec: `Connectivity::recalculate()`, defined in
`Topology.cpp`, which is not among the sources.  The specification: "if not
stale, no-op.  Otherwise derive, from the current bond set only" the angles
and the dihedrals. -/
def Connectivity.recalculate (c : Connectivity) : Connectivity :=
  if c.uptodate = true then c
  else
    { c with
      _angles := derive_angles c._bonds
      _dihedrals := derive_dihedrals c._bonds
      uptodate := true }

/-- The caches of a connectivity are valid: when it is flagged up to date,
its angles and dihedrals are the ones derived from its bonds.  (The
specification: "Any bond mutation marks derived caches stale; they are
recomputed on next access".) -/
def Connectivity.caches_valid (c : Connectivity) : Prop :=
  c.uptodate = true →
    c._angles = derive_angles c._bonds ∧ c._dihedrals = derive_dihedrals c._bonds

/-! ## Trajectory -/

/-- Modelled from the spec: the state of class `Trajectory` (`Trajectory.hpp`
and `Trajectory.cpp` are not among the sources).  The specification: the
trajectory "owns the open handle and chosen Format, holds optional
topology/cell overrides", caches `nsteps()`, keeps a sequential cursor, and is
Open or Closed.  `_format s` is what the Format produces for step `s`: the
frame it parses from the file, or a failure. -/
structure Trajectory where
  _format : Nat → Except Exception Frame
  _nsteps : Nat
  _step : Nat
  _topology : Option Topology
  _cell : Option UnitCell
  _closed : Bool

/-- Modelled from the spec: the substitution of the overrides into a frame:
they "always replace whatever the Format parsed". -/
def Trajectory.apply_overrides (file : Trajectory) (frame : Frame) : Frame :=
  let with_topology : Frame :=
    match file._topology with
    | some t => { frame with _topology := t }
    | none => frame
  match file._cell with
  | some c => { with_topology with _cell := c }
  | none => with_topology

/-- Modelled from the spec: `Trajectory::read()`: "calls the Format's
sequential `read`, advances the cursor, then applies overrides"; on a Closed
trajectory it "fails with InvalidState".  Returns the frame and the
trajectory after the call.  The specification gives the failures no message
text; the empty text stands for it. -/
def Trajectory.read (file : Trajectory) : Except Exception (Frame × Trajectory) :=
  if file._closed = true then .error ⟨ErrorClass.InvalidState, ""⟩
  else
    match file._format file._step with
    | .error e => .error e
    | .ok frame =>
      .ok (file.apply_overrides frame, { file with _step := file._step + 1 })

/-- Modelled from the spec: `Trajectory::read_step(s)`: "bounds-checks
`0 ≤ s < nsteps()` (OutOfRange otherwise), delegates to `Format.read_step`,
and resets the sequential cursor so that the next `read()` continues at
`s+1`"; the overrides are "applied after every read". -/
def Trajectory.read_step (file : Trajectory) (step : Nat) :
    Except Exception (Frame × Trajectory) :=
  if file._closed = true then .error ⟨ErrorClass.InvalidState, ""⟩
  else if ¬ step < file._nsteps then .error ⟨ErrorClass.OutOfRange, ""⟩
  else
    match file._format step with
    | .error e => .error e
    | .ok frame => .ok (file.apply_overrides frame, { file with _step := step + 1 })

/-- Modelled from the spec: the setter `Trajectory::topology(const Topology&)`
that `chfl_trajectory_set_topology` calls, `set_topology(t)` in the
specification: it installs the override. -/
def Trajectory.topology (file : Trajectory) (t : Topology) :
    Except Exception Trajectory :=
  if file._closed = true then .error ⟨ErrorClass.InvalidState, ""⟩
  else .ok { file with _topology := some t }

/-- Modelled from the spec: the setter `Trajectory::cell(const UnitCell&)`
that `chfl_trajectory_set_cell` calls, `set_cell(c)` in the specification. -/
def Trajectory.cell (file : Trajectory) (c : UnitCell) : Except Exception Trajectory :=
  if file._closed = true then .error ⟨ErrorClass.InvalidState, ""⟩
  else .ok { file with _cell := some c }

/-- `chfl_trajectory_read_step(file, step, frame)` of capi.cpp:
`*frame = file->read_step(step);` inside `CHFL_ERROR_WRAP_RETCODE`.  Returns
the status code, the global `status`, and the trajectory and the caller's
frame after the call. -/
def chfl_trajectory_read_step (status : CAPIStatus) (file : Trajectory)
    (step : Nat) (frame : Frame) : Int × CAPIStatus × (Trajectory × Frame) :=
  CHFL_ERROR_WRAP_RETCODE status (file, frame)
    (fun s =>
      match s.1.read_step step with
      | .error e => .error e
      | .ok (read, file') => .ok (file', read))

/-- `chfl_trajectory_read(file, frame)` of capi.cpp: `*frame = file->read();`
inside `CHFL_ERROR_WRAP_RETCODE`. -/
def chfl_trajectory_read (status : CAPIStatus) (file : Trajectory)
    (frame : Frame) : Int × CAPIStatus × (Trajectory × Frame) :=
  CHFL_ERROR_WRAP_RETCODE status (file, frame)
    (fun s =>
      match s.1.read with
      | .error e => .error e
      | .ok (read, file') => .ok (file', read))

/-- `chfl_trajectory_set_topology(file, topology)` of capi.cpp:
`file->topology(*topology);` inside `CHFL_ERROR_WRAP_RETCODE`. -/
def chfl_trajectory_set_topology (status : CAPIStatus) (file : Trajectory)
    (topology : Topology) : Int × CAPIStatus × Trajectory :=
  CHFL_ERROR_WRAP_RETCODE status file (fun f => f.topology topology)

/-- One call on a trajectory. -/
inductive trajectory_call where
  | read
  | read_step (step : Nat)
  | set_cell (cell : UnitCell)
  | set_topology (topology : Topology)

/-- A caller making the listed calls on one trajectory, in order: the frames
that the `read` and `read_step` calls return.  A call that throws returns no
frame and leaves the trajectory as it was. -/
def Trajectory.calls (file : Trajectory) : List trajectory_call → List Frame
  | [] => []
  | .read :: rest =>
    match file.read with
    | .ok (frame, file') => frame :: file'.calls rest
    | .error _ => file.calls rest
  | .read_step step :: rest =>
    match file.read_step step with
    | .ok (frame, file') => frame :: file'.calls rest
    | .error _ => file.calls rest
  | .set_cell c :: rest =>
    match file.cell c with
    | .ok file' => file'.calls rest
    | .error _ => file.calls rest
  | .set_topology t :: rest =>
    match file.topology t with
    | .ok file' => file'.calls rest
    | .error _ => file.calls rest

/-! ## Canonical tuples: theorems -/

/-- C1. For all atom indices `i ≠ j`, both `bond(i,j)` and `bond(j,i)` are
constructed and they are equal under `bond::operator==`. -/
theorem bond_symmetric (i j : Nat) (h : i ≠ j) :
    ∃ a b, bond.new i j = some a ∧ bond.new j i = some b ∧ a.eq b = true := by
  refine ⟨bond.stored i j, bond.stored j i, ?_, ?_, ?_⟩
  · simp [bond.new, h]
  · simp [bond.new, Ne.symm h]
  · simp [bond.eq, bond.index, bond.stored, min_comm, max_comm]

theorem bond_symmetric_witness :
    (0 : Nat) ≠ 1 ∧
      ∃ a b, bond.new 0 1 = some a ∧ bond.new 1 0 = some b ∧ a.eq b = true :=
  ⟨by decide, bond_symmetric 0 1 (by decide)⟩

/-- C2 (counterexample). The triple `(0,1,0)` satisfies `i ≠ j` and `j ≠ k`,
the validity of the specification, yet `angle(0,1,0)` is not constructed
(`assert(first != last)` fails; the reversed triple is the same triple), so
there are no two angles to find equal.  And `(0,1,1)`, which the constructor
accepts, has its reverse `(1,1,0)` rejected by `assert(first != midle)`. -/
theorem angle_reverse_not_constructed :
    ((0 : Nat) ≠ 1 ∧ (1 : Nat) ≠ 0) ∧
    (¬ ∃ a b, angle.new 0 1 0 = some a ∧ angle.new 0 1 0 = some b ∧ a.eq b = true) ∧
    angle.new 0 1 1 = some ⟨(0, 1, 1)⟩ ∧ angle.new 1 1 0 = none := by
  refine ⟨by decide, ?_, by decide, by decide⟩
  rintro ⟨a, b, ha, _⟩
  have hnone : angle.new 0 1 0 = none := by decide
  rw [hnone] at ha
  cases ha

/-- C2 (amended). For every index triple with pairwise distinct indices
(`i ≠ j`, `j ≠ k` and `i ≠ k`), `angle(i,j,k)` and `angle(k,j,i)` are both
constructed and they are equal under `angle::operator==`. -/
theorem angle_symmetric (i j k : Nat) (hij : i ≠ j) (hjk : j ≠ k) (hik : i ≠ k) :
    ∃ a b, angle.new i j k = some a ∧ angle.new k j i = some b ∧ a.eq b = true := by
  refine ⟨angle.stored i j k, angle.stored k j i, ?_, ?_, ?_⟩
  · simp [angle.new, hij, hik]
  · simp [angle.new, Ne.symm hjk, Ne.symm hik]
  · simp [angle.eq, angle.index, angle.stored, min_comm, max_comm]

theorem angle_symmetric_witness :
    ((0 : Nat) ≠ 1 ∧ (1 : Nat) ≠ 2 ∧ (0 : Nat) ≠ 2) ∧
      ∃ a b, angle.new 0 1 2 = some a ∧ angle.new 2 1 0 = some b ∧ a.eq b = true :=
  ⟨by decide, angle_symmetric 0 1 2 (by decide) (by decide) (by decide)⟩

/-- C3 (the code at the failing input). The quadruple `(0,1,0,1)` has distinct
adjacent indices and `max(0,1) = max(0,1)`: `dihedral(0,1,0,1)` stores
`(1,0,1,0)`, the reversed quadruple `dihedral(1,0,1,0)` stores `(0,1,0,1)`,
and `dihedral::operator==` finds them different. -/
theorem dihedral_reversed_differs_on_tie :
    dihedral.new 0 1 0 1 = some ⟨(1, 0, 1, 0)⟩ ∧
      dihedral.new 1 0 1 0 = some ⟨(0, 1, 0, 1)⟩ ∧
      dihedral.eq ⟨(1, 0, 1, 0)⟩ ⟨(0, 1, 0, 1)⟩ = false := by
  decide

/-- C4 (the code at the failing input). `dihedral(0,1,0,1)` passes the three
assertions and stores `(1,0,1,0)`, for which `max(stored[0], stored[1]) = 1` is
not below `max(stored[2], stored[3]) = 1`. -/
theorem dihedral_stored_max_not_below_on_tie :
    ∃ d, dihedral.new 0 1 0 1 = some d ∧
      ¬ (max (d.index 0) (d.index 1) < max (d.index 2) (d.index 3)) :=
  ⟨⟨(1, 0, 1, 0)⟩, by decide, by decide⟩

/-- C5. For all `i ≠ j`, `bond(i,j)` is constructed and stores exactly
`(min(i,j), max(i,j))`: index 0 reads the smaller atom index, index 1 the
larger, and `stored[0] < stored[1]` strictly. -/
theorem bond_stores_min_max (i j : Nat) (h : i ≠ j) :
    ∃ b, bond.new i j = some b ∧ b._data = (min i j, max i j) ∧
      b.index 0 = min i j ∧ b.index 1 = max i j ∧ b.index 0 < b.index 1 := by
  refine ⟨bond.stored i j, by simp [bond.new, h], rfl, rfl, rfl, ?_⟩
  simp only [bond.index, bond.stored]
  omega

theorem bond_stores_min_max_witness :
    (5 : Nat) ≠ 2 ∧
      ∃ b, bond.new 5 2 = some b ∧ b._data = (min 5 2, max 5 2) ∧
        b.index 0 = min 5 2 ∧ b.index 1 = max 5 2 ∧ b.index 0 < b.index 1 :=
  ⟨by decide, bond_stores_min_max 5 2 (by decide)⟩

/-- C6 (counterexample). The triple `(0,1,0)` satisfies `i ≠ j` and `j ≠ k`,
yet `angle(0,1,0)` is rejected: `assert(first != last)` fails.  And the
triple `(0,1,1)` has `j = k`, yet `angle(0,1,1)` is accepted: it passes both
assertions and stores `(0,1,1)`. -/
theorem angle_rejects_equal_ends :
    (((0 : Nat) ≠ 1 ∧ (1 : Nat) ≠ 0) ∧ angle.new 0 1 0 = none) ∧
      angle.new 0 1 1 = some ⟨(0, 1, 1)⟩ := by
  decide

/-- C6 (amended). For every triple with `i ≠ j`, `j ≠ k` and `i ≠ k`
construction of `angle(i,j,k)` is accepted and stores `(min(i,k), j, max(i,k))`
with the middle atom `j` unchanged; a triple with `i = j` or `i = k` is
rejected. -/
theorem angle_construction (i j k : Nat) :
    (i ≠ j → j ≠ k → i ≠ k →
      ∃ a, angle.new i j k = some a ∧ a._data = (min i k, j, max i k) ∧
        a.index 1 = j) ∧
    (i = j ∨ i = k → angle.new i j k = none) := by
  constructor
  · intro hij _ hik
    exact ⟨angle.stored i j k, by simp [angle.new, hij, hik], rfl, rfl⟩
  · intro h
    rcases h with h | h
    · by_cases hik : i = k <;> simp [angle.new, h, hik]
    · simp [angle.new, h]

theorem angle_construction_witness :
    (∃ a, angle.new 3 1 2 = some a ∧ a._data = (min 3 2, 1, max 3 2) ∧
      a.index 1 = 1) ∧ angle.new 4 4 7 = none ∧ angle.new 4 6 4 = none :=
  ⟨(angle_construction 3 1 2).1 (by decide) (by decide) (by decide),
    (angle_construction 4 4 7).2 (Or.inl rfl),
    (angle_construction 4 6 4).2 (Or.inr rfl)⟩

/-- C7. Bond equality is equality of unordered index pairs: for all `i ≠ j`
and `k ≠ l`, both bonds are constructed, and `bond(i,j) == bond(k,l)` holds if
and only if `{i,j} = {k,l}`. -/
theorem bond_eq_iff_same_pair (i j k l : Nat) (hij : i ≠ j) (hkl : k ≠ l) :
    ∃ a b, bond.new i j = some a ∧ bond.new k l = some b ∧
      (a.eq b = true ↔ ({i, j} : Finset Nat) = {k, l}) := by
  refine ⟨bond.stored i j, bond.stored k l, by simp [bond.new, hij],
    by simp [bond.new, hkl], ?_⟩
  have hpair : ({i, j} : Finset Nat) = {k, l} ↔ (i = k ∧ j = l) ∨ (i = l ∧ j = k) := by
    constructor
    · intro h
      have hi : i ∈ ({k, l} : Finset Nat) := h ▸ (by simp)
      have hj : j ∈ ({k, l} : Finset Nat) := h ▸ (by simp)
      have hk : k ∈ ({i, j} : Finset Nat) := h.symm ▸ (by simp)
      have hl : l ∈ ({i, j} : Finset Nat) := h.symm ▸ (by simp)
      simp only [Finset.mem_insert, Finset.mem_singleton] at hi hj hk hl
      omega
    · rintro (⟨rfl, rfl⟩ | ⟨rfl, rfl⟩)
      · rfl
      · exact Finset.pair_comm _ _
  rw [hpair]
  simp only [bond.eq, bond.index, bond.stored, Bool.and_eq_true, beq_iff_eq]
  omega

theorem bond_eq_iff_same_pair_witness :
    ((3 : Nat) ≠ 8 ∧ (8 : Nat) ≠ 3) ∧
      ∃ a b, bond.new 3 8 = some a ∧ bond.new 8 3 = some b ∧
        (a.eq b = true ↔ ({3, 8} : Finset Nat) = {8, 3}) :=
  ⟨by decide, bond_eq_iff_same_pair 3 8 8 3 (by decide) (by decide)⟩

/-! ## add_bond: theorems -/

theorem Topology.add_bond_no_self_bond (t t' : Topology) (i j : Nat)
    (ht : t.no_self_bond) (h : t.add_bond i j = .ok t') : t'.no_self_bond := by
  unfold Topology.add_bond Connectivity.add_bond at h
  by_cases hij : i = j
  · simp [hij] at h
  · by_cases hany : (t._connect._bonds.any fun b => b.eq (bond.stored i j)) = true
    · simp only [hij, hany, if_true, if_false] at h
      cases h
      exact ht
    · simp only [hij, hany, if_false] at h
      cases h
      intro b hb
      simp only [List.mem_append, List.mem_singleton] at hb
      rcases hb with hb | hb
      · exact ht b hb
      · subst hb
        simp only [bond.index, bond.stored]
        omega

theorem Topology.add_bonds_no_self_bond (pairs : List (Nat × Nat)) :
    ∀ t : Topology, t.no_self_bond → (t.add_bonds pairs).no_self_bond := by
  induction pairs with
  | nil => intro t ht; exact ht
  | cons p rest ih =>
    intro t ht
    unfold Topology.add_bonds
    cases h : t.add_bond p.1 p.2 with
    | error e => exact ih t ht
    | ok t' => exact ih t' (Topology.add_bond_no_self_bond t t' p.1 p.2 ht h)

/-- C8. For every topology and every index `i`, `add_bond(i,i)` fails with an
InvalidArgument error, `chfl_topology_add_bond` reports it as a status other
than `SUCESS` (it is `CHEMHARP`) and leaves the topology, hence the bond set,
unchanged; and no sequence of `add_bond` calls ever stores a self-bond: a
topology whose bonds all have `stored[0] < stored[1]` keeps that property
through every sequence of calls. -/
theorem add_bond_self_fails (status : CAPIStatus) (t : Topology) (i : Nat) :
    t.add_bond i i = .error ⟨ErrorClass.InvalidArgument, ""⟩ ∧
    (chfl_topology_add_bond status t i i).1 = CAPIStatus.CHEMHARP ∧
    (chfl_topology_add_bond status t i i).1 ≠ CAPIStatus.SUCESS ∧
    (chfl_topology_add_bond status t i i).2.2 = t ∧
    (chfl_topology_add_bond status t i i).2.2._connect._bonds = t._connect._bonds ∧
    (∀ pairs : List (Nat × Nat), t.no_self_bond →
      ∀ b ∈ (t.add_bonds pairs)._connect._bonds, b.index 0 ≠ b.index 1) := by
  have hfail : t.add_bond i i = .error ⟨ErrorClass.InvalidArgument, ""⟩ := by
    simp [Topology.add_bond, Connectivity.add_bond]
  refine ⟨hfail, ?_, ?_, ?_, ?_, ?_⟩
  · simp [chfl_topology_add_bond, CHFL_ERROR_WRAP_RETCODE, hfail, catch_code]
  · simp [chfl_topology_add_bond, CHFL_ERROR_WRAP_RETCODE, hfail, catch_code,
      CAPIStatus.CHEMHARP, CAPIStatus.SUCESS]
  · simp [chfl_topology_add_bond, CHFL_ERROR_WRAP_RETCODE, hfail]
  · simp [chfl_topology_add_bond, CHFL_ERROR_WRAP_RETCODE, hfail]
  · intro pairs ht b hb
    exact Nat.ne_of_lt (Topology.add_bonds_no_self_bond pairs t ht b hb)

/-! ## The format registry: theorems -/

theorem trajectory_map_t.lookup_append_single (key k : String)
    (tb : trajectory_builder_t) (l : List (String × trajectory_builder_t)) :
    (l ++ [(k, tb)]).lookup key =
      match l.lookup key with
      | some v => some v
      | none => if key = k then some tb else none := by
  induction l with
  | nil =>
    by_cases h : key = k
    · simp [List.lookup, h]
    · have hb : (key == k) = false := by simpa using h
      simp [List.lookup, h, hb]
  | cons hd tl ih =>
    obtain ⟨k', v'⟩ := hd
    by_cases h : key = k'
    · simp [List.lookup, h]
    · have hb : (key == k') = false := by simpa using h
      simp only [List.cons_append, List.lookup, hb]
      exact ih

theorem trajectory_map_t.find_emplace (m : trajectory_map_t) (k key : String)
    (tb : trajectory_builder_t) :
    (m.emplace k tb).find key =
      match m.find key with
      | some v => some v
      | none => if key = k then some tb else none := by
  unfold trajectory_map_t.emplace
  cases hk : m.find k with
  | some v =>
    simp only
    cases hkey : m.find key with
    | some w => rfl
    | none =>
      have hne : key ≠ k := by
        intro h
        rw [h, hk] at hkey
        cases hkey
      simp [hne]
  | none =>
    simp only [trajectory_map_t.find]
    exact trajectory_map_t.lookup_append_single key k tb m.entries

/-- C9 (counterexample). On the empty registry the first
`register_extension("xyz", ...)` succeeds and the second one throws an
exception whose class is `FormatError`, not `ConfigurationError`. -/
theorem register_extension_twice_not_ConfigurationError :
    ∃ f1 e,
      (⟨⟨[]⟩, ⟨[]⟩⟩ : TrajectoryFactory).register_extension "xyz" ⟨1, 2⟩ = .ok f1 ∧
      f1.register_extension "xyz" ⟨3, 4⟩ = .error e ∧
      e.cls = ErrorClass.FormatError ∧ e.cls ≠ ErrorClass.ConfigurationError :=
  ⟨⟨⟨[]⟩, ⟨[("xyz", ⟨1, 2⟩)]⟩⟩,
    ⟨ErrorClass.FormatError, "The extension \"xyz\" is already associated with a format."⟩,
    rfl, rfl, rfl, by decide⟩

/-- C9 (amended). For every registry state and every key:
`register_extension(ext, ctor)` succeeds when `ext` is not yet bound, and a
second `register_extension` with the same `ext` fails with `FormatError`; the
same holds for `register_format` and format names. -/
theorem register_twice_fails_FormatError (f : TrajectoryFactory) (key : String)
    (tb tb' : trajectory_builder_t) :
    (f.extensions.find key = none →
      ∃ f', f.register_extension key tb = .ok f' ∧
        f'.register_extension key tb' = .error ⟨ErrorClass.FormatError,
          "The extension \"" ++ key ++ "\" is already associated with a format."⟩) ∧
    (f.formats.find key = none →
      ∃ f', f.register_format key tb = .ok f' ∧
        f'.register_format key tb' = .error ⟨ErrorClass.FormatError,
          "The name \"" ++ key ++ "\" is already associated with a format."⟩) := by
  constructor
  · intro h
    refine ⟨{ f with extensions := f.extensions.emplace key tb }, ?_, ?_⟩
    · simp [TrajectoryFactory.register_extension, h]
    · simp [TrajectoryFactory.register_extension, trajectory_map_t.find_emplace, h]
  · intro h
    refine ⟨{ f with formats := f.formats.emplace key tb }, ?_, ?_⟩
    · simp [TrajectoryFactory.register_format, h]
    · simp [TrajectoryFactory.register_format, trajectory_map_t.find_emplace, h]

theorem register_twice_fails_FormatError_witness :
    (∃ f', (⟨⟨[]⟩, ⟨[]⟩⟩ : TrajectoryFactory).register_extension "nc" ⟨1, 2⟩ = .ok f' ∧
      f'.register_extension "nc" ⟨3, 4⟩ = .error ⟨ErrorClass.FormatError,
        "The extension \"" ++ "nc" ++ "\" is already associated with a format."⟩) ∧
    (∃ f', (⟨⟨[]⟩, ⟨[]⟩⟩ : TrajectoryFactory).register_format "XYZ" ⟨1, 2⟩ = .ok f' ∧
      f'.register_format "XYZ" ⟨3, 4⟩ = .error ⟨ErrorClass.FormatError,
        "The name \"" ++ "XYZ" ++ "\" is already associated with a format."⟩) :=
  ⟨(register_twice_fails_FormatError ⟨⟨[]⟩, ⟨[]⟩⟩ "nc" ⟨1, 2⟩ ⟨3, 4⟩).1 rfl,
    (register_twice_fails_FormatError ⟨⟨[]⟩, ⟨[]⟩⟩ "XYZ" ⟨1, 2⟩ ⟨3, 4⟩).2 rfl⟩

theorem TrajectoryFactory.calls_extensions_bound (calls : List registry_call)
    (key : String) :
    ∀ f : TrajectoryFactory,
      (f.calls calls).extensions.find key ≠ none ↔
        (f.extensions.find key ≠ none ∨
          ∃ tb, registry_call.register_extension key tb ∈ calls) := by
  induction calls with
  | nil => intro f; simp [TrajectoryFactory.calls]
  | cons c rest ih =>
    intro f
    cases c with
    | register_format name tb =>
      have hstep : ∀ f', f.register_format name tb = .ok f' →
          f'.extensions = f.extensions := by
        intro f' h
        unfold TrajectoryFactory.register_format at h
        split at h
        · cases h
        · cases h; rfl
      unfold TrajectoryFactory.calls
      cases h : f.register_format name tb with
      | error e => simp [ih f]
      | ok f' => simp [ih f', hstep f' h]
    | register_extension ext tb =>
      unfold TrajectoryFactory.calls
      by_cases hb : f.extensions.find ext = none
      · have h : f.register_extension ext tb
            = .ok { f with extensions := f.extensions.emplace ext tb } := by
          simp [TrajectoryFactory.register_extension, hb]
        simp only [h, ih, trajectory_map_t.find_emplace, List.mem_cons,
          registry_call.register_extension.injEq]
        by_cases hk : key = ext
        · subst hk
          simp [hb]
        · cases hf : f.extensions.find key with
          | none => simp [hk]
          | some v => simp
      · have h : f.register_extension ext tb = .error ⟨ErrorClass.FormatError,
            "The extension \"" ++ ext ++ "\" is already associated with a format."⟩ := by
          simp [TrajectoryFactory.register_extension, hb]
        simp only [h, ih, List.mem_cons, registry_call.register_extension.injEq]
        by_cases hk : key = ext
        · subst hk
          simp [hb]
        · simp [hk]

theorem TrajectoryFactory.calls_formats_bound (calls : List registry_call)
    (key : String) :
    ∀ f : TrajectoryFactory,
      (f.calls calls).formats.find key ≠ none ↔
        (f.formats.find key ≠ none ∨
          ∃ tb, registry_call.register_format key tb ∈ calls) := by
  induction calls with
  | nil => intro f; simp [TrajectoryFactory.calls]
  | cons c rest ih =>
    intro f
    cases c with
    | register_extension ext tb =>
      have hstep : ∀ f', f.register_extension ext tb = .ok f' →
          f'.formats = f.formats := by
        intro f' h
        unfold TrajectoryFactory.register_extension at h
        split at h
        · cases h
        · cases h; rfl
      unfold TrajectoryFactory.calls
      cases h : f.register_extension ext tb with
      | error e => simp [ih f]
      | ok f' => simp [ih f', hstep f' h]
    | register_format name tb =>
      unfold TrajectoryFactory.calls
      by_cases hb : f.formats.find name = none
      · have h : f.register_format name tb
            = .ok { f with formats := f.formats.emplace name tb } := by
          simp [TrajectoryFactory.register_format, hb]
        simp only [h, ih, trajectory_map_t.find_emplace, List.mem_cons,
          registry_call.register_format.injEq]
        by_cases hk : key = name
        · subst hk
          simp [hb]
        · cases hf : f.formats.find key with
          | none => simp [hk]
          | some v => simp
      · have h : f.register_format name tb = .error ⟨ErrorClass.FormatError,
            "The name \"" ++ name ++ "\" is already associated with a format."⟩ := by
          simp [TrajectoryFactory.register_format, hb]
        simp only [h, ih, List.mem_cons, registry_call.register_format.injEq]
        by_cases hk : key = name
        · subst hk
          simp [hb]
        · simp [hk]

theorem TrajectoryFactory.by_extension_error_iff (f : TrajectoryFactory)
    (key : String) :
    (∃ e, f.by_extension key = .error e) ↔ f.extensions.find key = none := by
  unfold TrajectoryFactory.by_extension
  by_cases h : f.extensions.find key = none <;> simp [h]

theorem TrajectoryFactory.format_error_iff (f : TrajectoryFactory)
    (key : String) :
    (∃ e, f.format key = .error e) ↔ f.formats.find key = none := by
  unfold TrajectoryFactory.format
  by_cases h : f.formats.find key = none <;> simp [h]

/-- C10 (counterexample). On the empty registry `by_extension("xyz")` fails
with an exception whose class is `FormatError`, not `FormatNotFound`. -/
theorem by_extension_unbound_not_FormatNotFound :
    ∃ e, (⟨⟨[]⟩, ⟨[]⟩⟩ : TrajectoryFactory).by_extension "xyz" = .error e ∧
      e.cls = ErrorClass.FormatError ∧ e.cls ≠ ErrorClass.FormatNotFound :=
  ⟨⟨ErrorClass.FormatError,
      "Can not find a format associated with the \"xyz\" extension."⟩,
    rfl, rfl, by decide⟩

/-- C10 (amended). A registry lookup fails with `FormatError` exactly when
the key is not bound.  `by_extension(ext)` fails iff `ext` is not bound in the
extension map, the failure is a `FormatError`, and a bound `ext` gives the
bound builder; starting from a registry where `ext` is unbound, after any
sequence of registration calls `by_extension(ext)` fails iff none of the
calls was `register_extension(ext, ...)`.  The same holds for `format(name)`,
the name map and `register_format`. -/
theorem lookup_fails_iff_unbound (f : TrajectoryFactory) (key : String) :
    (((∃ e, f.by_extension key = .error e) ↔ f.extensions.find key = none) ∧
      (∀ e, f.by_extension key = .error e → e.cls = ErrorClass.FormatError) ∧
      (∀ tb, f.extensions.find key = some tb → f.by_extension key = .ok (tb, f)) ∧
      (∀ calls, f.extensions.find key = none →
        ((∃ e, (f.calls calls).by_extension key = .error e) ↔
          ∀ tb, registry_call.register_extension key tb ∉ calls))) ∧
    (((∃ e, f.format key = .error e) ↔ f.formats.find key = none) ∧
      (∀ e, f.format key = .error e → e.cls = ErrorClass.FormatError) ∧
      (∀ tb, f.formats.find key = some tb → f.format key = .ok (tb, f)) ∧
      (∀ calls, f.formats.find key = none →
        ((∃ e, (f.calls calls).format key = .error e) ↔
          ∀ tb, registry_call.register_format key tb ∉ calls))) := by
  refine ⟨⟨TrajectoryFactory.by_extension_error_iff f key, ?_, ?_, ?_⟩,
    ⟨TrajectoryFactory.format_error_iff f key, ?_, ?_, ?_⟩⟩
  · intro e he
    unfold TrajectoryFactory.by_extension at he
    split at he
    · cases he; rfl
    · cases he
  · intro tb h
    simp [TrajectoryFactory.by_extension, trajectory_map_t.subscript, h]
  · intro calls h
    rw [TrajectoryFactory.by_extension_error_iff]
    have hb := TrajectoryFactory.calls_extensions_bound calls key f
    constructor
    · intro hnone tb hmem
      exact (hb.mpr (Or.inr ⟨tb, hmem⟩)) hnone
    · intro hno
      by_contra hne
      rcases hb.mp hne with h' | ⟨tb, hmem⟩
      · exact h' h
      · exact hno tb hmem
  · intro e he
    unfold TrajectoryFactory.format at he
    split at he
    · cases he; rfl
    · cases he
  · intro tb h
    simp [TrajectoryFactory.format, trajectory_map_t.subscript, h]
  · intro calls h
    rw [TrajectoryFactory.format_error_iff]
    have hb := TrajectoryFactory.calls_formats_bound calls key f
    constructor
    · intro hnone tb hmem
      exact (hb.mpr (Or.inr ⟨tb, hmem⟩)) hnone
    · intro hno
      by_contra hne
      rcases hb.mp hne with h' | ⟨tb, hmem⟩
      · exact h' h
      · exact hno tb hmem

theorem TrajectoryFactory.register_extension_run_bound (f : TrajectoryFactory)
    (key : String) (tb0 tb : trajectory_builder_t)
    (h : f.extensions.find key = some tb0) :
    f.register_extension_run key tb
      = (some ⟨ErrorClass.FormatError,
          "The extension \"" ++ key ++ "\" is already associated with a format."⟩, f) := by
  simp [TrajectoryFactory.register_extension_run, h]

theorem TrajectoryFactory.register_format_run_bound (f : TrajectoryFactory)
    (key : String) (tb0 tb : trajectory_builder_t)
    (h : f.formats.find key = some tb0) :
    f.register_format_run key tb
      = (some ⟨ErrorClass.FormatError,
          "The name \"" ++ key ++ "\" is already associated with a format."⟩, f) := by
  simp [TrajectoryFactory.register_format_run, h]

theorem TrajectoryFactory.register_extension_run_unbound (f : TrajectoryFactory)
    (key : String) (tb : trajectory_builder_t)
    (h : f.extensions.find key = none) :
    f.register_extension_run key tb
      = (none, { f with extensions := ⟨f.extensions.entries ++ [(key, tb)]⟩ }) := by
  simp [TrajectoryFactory.register_extension_run, trajectory_map_t.emplace, h]

theorem TrajectoryFactory.register_format_run_unbound (f : TrajectoryFactory)
    (key : String) (tb : trajectory_builder_t)
    (h : f.formats.find key = none) :
    f.register_format_run key tb
      = (none, { f with formats := ⟨f.formats.entries ++ [(key, tb)]⟩ }) := by
  simp [TrajectoryFactory.register_format_run, trajectory_map_t.emplace, h]

/-- C11. A failed registration makes no mutation.  The factory object is
followed through the call on both paths.  When `key` is bound to `tb0`,
`register_extension(key, tb)` throws (a `FormatError`) and the factory that the
throwing path leaves behind is the factory before the call: the name map and
the extension map are as before, `key` is still bound to `tb0` (so not to a
different `tb`), and a lookup of `key` afterwards returns `tb0`.  Whenever
`register_extension` throws, its key was bound and the factory is as before.
The same holds for `register_format` and the name map.  The maps can change
under these definitions: a registration of an unbound key does not throw and
leaves `key` bound to `tb`, in a map that differs from the one before.  The
exception thrown is the one of the registration functions above. -/
theorem failed_registration_no_mutation (f : TrajectoryFactory) (key : String)
    (tb0 tb : trajectory_builder_t) :
    (f.extensions.find key = some tb0 →
      (f.register_extension_run key tb).1 = some ⟨ErrorClass.FormatError,
        "The extension \"" ++ key ++ "\" is already associated with a format."⟩ ∧
      (f.register_extension_run key tb).2 = f ∧
      (f.register_extension_run key tb).2.formats = f.formats ∧
      (f.register_extension_run key tb).2.extensions = f.extensions ∧
      (f.register_extension_run key tb).2.extensions.find key = some tb0 ∧
      (tb ≠ tb0 → (f.register_extension_run key tb).2.extensions.find key ≠ some tb) ∧
      (f.register_extension_run key tb).2.by_extension key
        = .ok (tb0, (f.register_extension_run key tb).2)) ∧
    (f.formats.find key = some tb0 →
      (f.register_format_run key tb).1 = some ⟨ErrorClass.FormatError,
        "The name \"" ++ key ++ "\" is already associated with a format."⟩ ∧
      (f.register_format_run key tb).2 = f ∧
      (f.register_format_run key tb).2.formats = f.formats ∧
      (f.register_format_run key tb).2.extensions = f.extensions ∧
      (f.register_format_run key tb).2.formats.find key = some tb0 ∧
      (tb ≠ tb0 → (f.register_format_run key tb).2.formats.find key ≠ some tb) ∧
      (f.register_format_run key tb).2.format key
        = .ok (tb0, (f.register_format_run key tb).2)) ∧
    (∀ e, (f.register_extension_run key tb).1 = some e →
      f.extensions.find key ≠ none ∧ (f.register_extension_run key tb).2 = f) ∧
    (∀ e, (f.register_format_run key tb).1 = some e →
      f.formats.find key ≠ none ∧ (f.register_format_run key tb).2 = f) ∧
    (f.extensions.find key = none →
      (f.register_extension_run key tb).1 = none ∧
      (f.register_extension_run key tb).2.extensions.find key = some tb ∧
      (f.register_extension_run key tb).2.extensions ≠ f.extensions ∧
      (f.register_extension_run key tb).2.formats = f.formats) ∧
    (f.formats.find key = none →
      (f.register_format_run key tb).1 = none ∧
      (f.register_format_run key tb).2.formats.find key = some tb ∧
      (f.register_format_run key tb).2.formats ≠ f.formats ∧
      (f.register_format_run key tb).2.extensions = f.extensions) ∧
    ((∀ e, (f.register_extension_run key tb).1 = some e ↔
        f.register_extension key tb = .error e) ∧
      ((f.register_extension_run key tb).1 = none ↔
        f.register_extension key tb = .ok (f.register_extension_run key tb).2)) ∧
    ((∀ e, (f.register_format_run key tb).1 = some e ↔
        f.register_format key tb = .error e) ∧
      ((f.register_format_run key tb).1 = none ↔
        f.register_format key tb = .ok (f.register_format_run key tb).2)) := by
  refine ⟨?_, ?_, ?_, ?_, ?_, ?_, ?_, ?_⟩
  · intro h
    rw [TrajectoryFactory.register_extension_run_bound f key tb0 tb h]
    refine ⟨rfl, rfl, rfl, rfl, h, ?_, ?_⟩
    · intro hne heq
      rw [h] at heq
      exact hne (Option.some.inj heq).symm
    · simp [TrajectoryFactory.by_extension, trajectory_map_t.subscript, h]
  · intro h
    rw [TrajectoryFactory.register_format_run_bound f key tb0 tb h]
    refine ⟨rfl, rfl, rfl, rfl, h, ?_, ?_⟩
    · intro hne heq
      rw [h] at heq
      exact hne (Option.some.inj heq).symm
    · simp [TrajectoryFactory.format, trajectory_map_t.subscript, h]
  · intro e he
    cases hfind : f.extensions.find key with
    | none =>
      rw [TrajectoryFactory.register_extension_run_unbound f key tb hfind] at he
      cases he
    | some tb1 =>
      rw [TrajectoryFactory.register_extension_run_bound f key tb1 tb hfind]
      exact ⟨by simp, rfl⟩
  · intro e he
    cases hfind : f.formats.find key with
    | none =>
      rw [TrajectoryFactory.register_format_run_unbound f key tb hfind] at he
      cases he
    | some tb1 =>
      rw [TrajectoryFactory.register_format_run_bound f key tb1 tb hfind]
      exact ⟨by simp, rfl⟩
  · intro h
    rw [TrajectoryFactory.register_extension_run_unbound f key tb h]
    refine ⟨rfl, ?_, ?_, rfl⟩
    · have hl : f.extensions.entries.lookup key = none := h
      simp [trajectory_map_t.find, List.lookup_append, hl, List.lookup]
    · intro heq
      have hlen := congrArg (fun m => m.entries.length) heq
      simp at hlen
  · intro h
    rw [TrajectoryFactory.register_format_run_unbound f key tb h]
    refine ⟨rfl, ?_, ?_, rfl⟩
    · have hl : f.formats.entries.lookup key = none := h
      simp [trajectory_map_t.find, List.lookup_append, hl, List.lookup]
    · intro heq
      have hlen := congrArg (fun m => m.entries.length) heq
      simp at hlen
  · cases hfind : f.extensions.find key with
    | none =>
      rw [TrajectoryFactory.register_extension_run_unbound f key tb hfind]
      simp [TrajectoryFactory.register_extension, trajectory_map_t.emplace, hfind]
    | some tb1 =>
      rw [TrajectoryFactory.register_extension_run_bound f key tb1 tb hfind]
      refine ⟨?_, ?_⟩
      · intro e
        simp [TrajectoryFactory.register_extension, hfind, eq_comm]
      · simp [TrajectoryFactory.register_extension, hfind]
  · cases hfind : f.formats.find key with
    | none =>
      rw [TrajectoryFactory.register_format_run_unbound f key tb hfind]
      simp [TrajectoryFactory.register_format, trajectory_map_t.emplace, hfind]
    | some tb1 =>
      rw [TrajectoryFactory.register_format_run_bound f key tb1 tb hfind]
      refine ⟨?_, ?_⟩
      · intro e
        simp [TrajectoryFactory.register_format, hfind, eq_comm]
      · simp [TrajectoryFactory.register_format, hfind]

theorem failed_registration_no_mutation_witness :
    ((⟨⟨[]⟩, ⟨[("xyz", ⟨1, 2⟩)]⟩⟩ : TrajectoryFactory).register_extension_run
        "xyz" ⟨3, 4⟩).1
        = some ⟨ErrorClass.FormatError,
          "The extension \"" ++ "xyz" ++ "\" is already associated with a format."⟩ ∧
      ((⟨⟨[]⟩, ⟨[("xyz", ⟨1, 2⟩)]⟩⟩ : TrajectoryFactory).register_extension_run
        "xyz" ⟨3, 4⟩).2
        = ⟨⟨[]⟩, ⟨[("xyz", ⟨1, 2⟩)]⟩⟩ ∧
      ((⟨⟨[]⟩, ⟨[("xyz", ⟨1, 2⟩)]⟩⟩ : TrajectoryFactory).register_extension_run
        "xyz" ⟨3, 4⟩).2.extensions.find "xyz" = some ⟨1, 2⟩ :=
  ⟨((failed_registration_no_mutation ⟨⟨[]⟩, ⟨[("xyz", ⟨1, 2⟩)]⟩⟩ "xyz" ⟨1, 2⟩
      ⟨3, 4⟩).1 rfl).1,
    ((failed_registration_no_mutation ⟨⟨[]⟩, ⟨[("xyz", ⟨1, 2⟩)]⟩⟩ "xyz" ⟨1, 2⟩
      ⟨3, 4⟩).1 rfl).2.1,
    ((failed_registration_no_mutation ⟨⟨[]⟩, ⟨[("xyz", ⟨1, 2⟩)]⟩⟩ "xyz" ⟨1, 2⟩
      ⟨3, 4⟩).1 rfl).2.2.2.2.1⟩

/-- C12. Registry lookups are read-only.  The factory object is followed
through the call on both paths.  For every registry state and every key,
whether `by_extension(ext)` throws or returns, the factory after the call is
the factory before it: the name map and the extension map hold the same
entries and every key has the binding it had.  For an unbound key the call
throws, the subscript is never evaluated, and the key is still unbound after
the call: no default entry is inserted.  For a bound key the call returns the
bound builder, and the subscript `extensions[ext]` it evaluates inserts
nothing.  The same holds for `format(name)`.  (On its own, the subscript of an
unbound key does insert a default entry, the pair of null pointers.)  What
the call throws or returns is what the lookup functions above give. -/
theorem lookup_read_only (f : TrajectoryFactory) (key : String) :
    ((f.by_extension_run key).2 = f ∧
      (f.by_extension_run key).2.formats = f.formats ∧
      (f.by_extension_run key).2.extensions = f.extensions ∧
      (f.by_extension_run key).2.formats.entries = f.formats.entries ∧
      (f.by_extension_run key).2.extensions.entries = f.extensions.entries ∧
      (∀ q, (f.by_extension_run key).2.extensions.find q = f.extensions.find q) ∧
      (∀ q, (f.by_extension_run key).2.formats.find q = f.formats.find q)) ∧
    (f.extensions.find key = none →
      (∃ e, (f.by_extension_run key).1 = .error e) ∧
      (f.by_extension_run key).2.extensions.find key = none ∧
      (f.by_extension_run key).2.extensions.entries.length
        = f.extensions.entries.length) ∧
    (∀ tb, f.extensions.find key = some tb → (f.by_extension_run key).1 = .ok tb) ∧
    ((f.format_run key).2 = f ∧
      (f.format_run key).2.formats = f.formats ∧
      (f.format_run key).2.extensions = f.extensions ∧
      (f.format_run key).2.formats.entries = f.formats.entries ∧
      (f.format_run key).2.extensions.entries = f.extensions.entries ∧
      (∀ q, (f.format_run key).2.extensions.find q = f.extensions.find q) ∧
      (∀ q, (f.format_run key).2.formats.find q = f.formats.find q)) ∧
    (f.formats.find key = none →
      (∃ e, (f.format_run key).1 = .error e) ∧
      (f.format_run key).2.formats.find key = none ∧
      (f.format_run key).2.formats.entries.length = f.formats.entries.length) ∧
    (∀ tb, f.formats.find key = some tb → (f.format_run key).1 = .ok tb) ∧
    (f.extensions.find key = none →
      (f.extensions.subscript key).2 ≠ f.extensions ∧
      (f.extensions.subscript key).2.find key = some ⟨0, 0⟩) ∧
    (f.by_extension key
        = Except.map (fun tb => (tb, (f.by_extension_run key).2))
            (f.by_extension_run key).1 ∧
      f.format key
        = Except.map (fun tb => (tb, (f.format_run key).2)) (f.format_run key).1) := by
  have hext : (f.by_extension_run key).2 = f := by
    unfold TrajectoryFactory.by_extension_run
    cases hfind : f.extensions.find key with
    | none => simp
    | some tb => simp [trajectory_map_t.subscript, hfind]
  have hfmt : (f.format_run key).2 = f := by
    unfold TrajectoryFactory.format_run
    cases hfind : f.formats.find key with
    | none => simp
    | some tb => simp [trajectory_map_t.subscript, hfind]
  refine ⟨⟨hext, by rw [hext], by rw [hext], by rw [hext], by rw [hext],
      fun q => by rw [hext], fun q => by rw [hext]⟩, ?_, ?_,
    ⟨hfmt, by rw [hfmt], by rw [hfmt], by rw [hfmt], by rw [hfmt],
      fun q => by rw [hfmt], fun q => by rw [hfmt]⟩, ?_, ?_, ?_, ?_, ?_⟩
  · intro h
    refine ⟨?_, by rw [hext]; exact h, by rw [hext]⟩
    simp [TrajectoryFactory.by_extension_run, h]
  · intro tb h
    simp [TrajectoryFactory.by_extension_run, trajectory_map_t.subscript, h]
  · intro h
    refine ⟨?_, by rw [hfmt]; exact h, by rw [hfmt]⟩
    simp [TrajectoryFactory.format_run, h]
  · intro tb h
    simp [TrajectoryFactory.format_run, trajectory_map_t.subscript, h]
  · intro hnone
    refine ⟨?_, ?_⟩
    · intro heq
      have hlen := congrArg (fun m => m.entries.length) heq
      simp [trajectory_map_t.subscript, hnone] at hlen
    · have hl : f.extensions.entries.lookup key = none := hnone
      simp [trajectory_map_t.subscript, hnone, trajectory_map_t.find,
        List.lookup_append, hl, List.lookup]
  · unfold TrajectoryFactory.by_extension TrajectoryFactory.by_extension_run
    cases hfind : f.extensions.find key with
    | none => simp [Except.map]
    | some tb => simp [Except.map, trajectory_map_t.subscript, hfind]
  · unfold TrajectoryFactory.format TrajectoryFactory.format_run
    cases hfind : f.formats.find key with
    | none => simp [Except.map]
    | some tb => simp [Except.map, trajectory_map_t.subscript, hfind]

/-! ## Format defaults and the status surface: theorems -/

/-- C13. For a Format that does not provide them, `read_step(step, frame)`,
`read(frame)` and `write(frame)` each throw a `FormatError` for every step
and every frame, none of them ever returns normally, and a C API function
wrapping such a call returns `FORMAT`, not `SUCESS`, records the message and
leaves the frame passed in as it was. -/
theorem Format_defaults_fail (status : CAPIStatus) (step : Nat) (frame : Frame) :
    (Format.read_step step frame
        = .error ⟨ErrorClass.FormatError, "Not implemented function 'read_at'"⟩ ∧
      Format.read frame
        = .error ⟨ErrorClass.FormatError, "Not implemented function 'read'"⟩ ∧
      Format.write frame
        = .error ⟨ErrorClass.FormatError, "Not implemented function 'write'"⟩) ∧
    ((∀ r, Format.read_step step frame ≠ .ok r) ∧
      (∀ r, Format.read frame ≠ .ok r) ∧
      (∀ r, Format.write frame ≠ .ok r)) ∧
    (CHFL_ERROR_WRAP_RETCODE status frame (Format.read_step step)
        = (CAPIStatus.FORMAT, ⟨"Not implemented function 'read_at'"⟩, frame) ∧
      CHFL_ERROR_WRAP_RETCODE status frame Format.read
        = (CAPIStatus.FORMAT, ⟨"Not implemented function 'read'"⟩, frame) ∧
      CHFL_ERROR_WRAP_RETCODE status frame Format.write
        = (CAPIStatus.FORMAT, ⟨"Not implemented function 'write'"⟩, frame)) ∧
    CAPIStatus.FORMAT ≠ CAPIStatus.SUCESS := by
  refine ⟨⟨rfl, rfl, rfl⟩, ⟨?_, ?_, ?_⟩, ⟨rfl, rfl, rfl⟩, by decide⟩
  · intro r h
    simp [Format.read_step] at h
  · intro r h
    simp [Format.read] at h
  · intro r h
    simp [Format.write] at h

theorem CAPIStatus.message_in_range (code : Int) (h0 : 0 ≤ code) (h5 : code ≤ 5) :
    CAPIStatus.message code ≠ "" ∧
      ∃ m, CAPIStatus.messages[code.toNat]? = some m ∧ CAPIStatus.message code = m := by
  interval_cases code
  · exact ⟨by decide, _, rfl, rfl⟩
  · exact ⟨by decide, _, rfl, rfl⟩
  · exact ⟨by decide, _, rfl, rfl⟩
  · exact ⟨by decide, _, rfl, rfl⟩
  · exact ⟨by decide, _, rfl, rfl⟩
  · exact ⟨by decide, _, rfl, rfl⟩

theorem CAPIStatus.message_out_of_range (code : Int) (h : ¬ (0 ≤ code ∧ code ≤ 5)) :
    CAPIStatus.message code = "" := by
  have h' : ¬ (0 ≤ code ∧ code < CAPIStatus.LAST) := by
    simp only [CAPIStatus.LAST]
    omega
  simp [CAPIStatus.message, h']

/-- C14. The status codes are the six numbers 0..5, in the order `SUCESS`,
`STD_ERROR`, `CHEMHARP`, `MEMORY`, `FILE`, `FORMAT` (with `LAST = 6` their
count, the size of the message table), every code a catch clause returns is
one of them, and `chfl_strerror(code)` is a non-empty message, read inside
the table, exactly when `0 ≤ code ≤ 5`, and the empty string for every other
integer. -/
theorem status_codes_and_strerror (code : Int) :
    (CAPIStatus.SUCESS = 0 ∧ CAPIStatus.STD_ERROR = 1 ∧ CAPIStatus.CHEMHARP = 2 ∧
      CAPIStatus.MEMORY = 3 ∧ CAPIStatus.FILE = 4 ∧ CAPIStatus.FORMAT = 5 ∧
      CAPIStatus.LAST = 6 ∧ CAPIStatus.messages.length = 6) ∧
    (∀ cls, 0 ≤ catch_code cls ∧ catch_code cls ≤ 5) ∧
    (chfl_strerror code ≠ "" ↔ 0 ≤ code ∧ code ≤ 5) ∧
    (0 ≤ code ∧ code ≤ 5 →
      code.toNat < CAPIStatus.messages.length ∧
        CAPIStatus.messages[code.toNat]? = some (chfl_strerror code)) ∧
    (¬ (0 ≤ code ∧ code ≤ 5) → chfl_strerror code = "") := by
  refine ⟨⟨rfl, rfl, rfl, rfl, rfl, rfl, rfl, rfl⟩, ?_, ?_, ?_, ?_⟩
  · intro cls
    cases cls <;> decide
  · constructor
    · intro hne
      by_contra hout
      exact hne (CAPIStatus.message_out_of_range code hout)
    · intro hin
      exact (CAPIStatus.message_in_range code hin.1 hin.2).1
  · intro hin
    obtain ⟨_, m, hm, hmsg⟩ := CAPIStatus.message_in_range code hin.1 hin.2
    refine ⟨?_, ?_⟩
    · have : CAPIStatus.messages.length = 6 := rfl
      omega
    · rw [hm]
      simp [chfl_strerror, hmsg]
  · intro hout
    exact CAPIStatus.message_out_of_range code hout

/-- C15 (counterexample). `chfl_topology_bonds` called on a topology without
bonds with an array of one row returns `MEMORY` (3), not `SUCESS`, although
its wrapped body raises no failure: the instructions inside
`CHFL_ERROR_WRAP_RETCODE` are the copy loop, which raises nothing on any
array, and the code comes from the size check placed before them.  So
"returns Success if and only if the wrapped body raised no failure" fails
from right to left. -/
theorem chfl_topology_bonds_MEMORY_without_failure :
    (chfl_topology_bonds ⟨""⟩ [] (fun _ => (7, 7)) 1).1 = CAPIStatus.MEMORY ∧
    CAPIStatus.MEMORY = 3 ∧
    (chfl_topology_bonds ⟨""⟩ [] (fun _ => (7, 7)) 1).1 ≠ CAPIStatus.SUCESS ∧
    (∀ (status : CAPIStatus) (data : Nat → Nat × Nat),
      chfl_topology_bonds status [] data 0
        = CHFL_ERROR_WRAP_RETCODE status data
            (chfl_topology_bonds_instructions [] 0)) ∧
    (∀ (n : Nat) (data : Nat → Nat × Nat),
      ∃ data', chfl_topology_bonds_instructions [] n data = .ok data') ∧
    ¬ ((chfl_topology_bonds ⟨""⟩ [] (fun _ => (7, 7)) 1).1 = CAPIStatus.SUCESS ↔
      ∃ data', chfl_topology_bonds_instructions [] 1 (fun _ => (7, 7)) = .ok data') := by
  have hcode : (chfl_topology_bonds ⟨""⟩ [] (fun _ => (7, 7)) 1).1
      = CAPIStatus.MEMORY := rfl
  have hne : CAPIStatus.MEMORY ≠ CAPIStatus.SUCESS := by decide
  refine ⟨hcode, rfl, ?_, ?_, ?_, ?_⟩
  · rw [hcode]
    exact hne
  · intro status data
    rfl
  · intro n data
    exact ⟨_, rfl⟩
  · intro hiff
    rw [hcode] at hiff
    exact hne (hiff.mpr ⟨_, rfl⟩)

/-- C15 (amended). A function whose whole body is wrapped in
`CHFL_ERROR_WRAP_RETCODE` returns `SUCESS` (0) if and only if the body threw
nothing; otherwise the class of the exception decides the code: `FileError`
gives `FILE` (4), `MemoryError` gives `MEMORY` (3), `FormatError` gives
`FORMAT` (5), any other library `Error` gives `CHEMHARP` (2) and any other
standard exception gives `STD_ERROR` (1); the three specific classes never
get the library code.  The three array getters `chfl_topology_bonds`,
`chfl_topology_angles` and `chfl_topology_dihedrals` check the size of the
array before their wrapped body, which raises nothing: they return `SUCESS`
if and only if the size check passes, and `MEMORY` (3) when it fails. -/
theorem wrap_retcode_status {σ : Type} (status : CAPIStatus) (s : σ)
    (instructions : σ → Except Exception σ) :
    ((CHFL_ERROR_WRAP_RETCODE status s instructions).1 = CAPIStatus.SUCESS ↔
      ∃ s', instructions s = .ok s') ∧
    (∀ e, instructions s = .error e →
      (CHFL_ERROR_WRAP_RETCODE status s instructions).1 = catch_code e.cls ∧
      (CHFL_ERROR_WRAP_RETCODE status s instructions).1 ≠ CAPIStatus.SUCESS) ∧
    (catch_code ErrorClass.FileError = 4 ∧ catch_code ErrorClass.MemoryError = 3 ∧
      catch_code ErrorClass.FormatError = 5 ∧ catch_code ErrorClass.Error = 2 ∧
      catch_code ErrorClass.std_exception = 1) ∧
    (catch_code ErrorClass.FileError ≠ CAPIStatus.CHEMHARP ∧
      catch_code ErrorClass.MemoryError ≠ CAPIStatus.CHEMHARP ∧
      catch_code ErrorClass.FormatError ≠ CAPIStatus.CHEMHARP) ∧
    (∀ (bonds : List bond) (data : Nat → Nat × Nat) (n : Nat),
      (n = bonds.length →
        chfl_topology_bonds status bonds data n
          = CHFL_ERROR_WRAP_RETCODE status data
              (chfl_topology_bonds_instructions bonds n)) ∧
      (∃ data', chfl_topology_bonds_instructions bonds n data = .ok data') ∧
      ((chfl_topology_bonds status bonds data n).1 = CAPIStatus.SUCESS ↔
        n = bonds.length) ∧
      (n ≠ bonds.length →
        (chfl_topology_bonds status bonds data n).1 = CAPIStatus.MEMORY)) ∧
    (∀ (angles : List angle) (data : Nat → Nat × Nat × Nat) (n : Nat),
      (n = angles.length →
        chfl_topology_angles status angles data n
          = CHFL_ERROR_WRAP_RETCODE status data
              (chfl_topology_angles_instructions angles n)) ∧
      (∃ data', chfl_topology_angles_instructions angles n data = .ok data') ∧
      ((chfl_topology_angles status angles data n).1 = CAPIStatus.SUCESS ↔
        n = angles.length) ∧
      (n ≠ angles.length →
        (chfl_topology_angles status angles data n).1 = CAPIStatus.MEMORY)) ∧
    (∀ (dihedrals : List dihedral) (data : Nat → Nat × Nat × Nat × Nat) (n : Nat),
      (n = dihedrals.length →
        chfl_topology_dihedrals status dihedrals data n
          = CHFL_ERROR_WRAP_RETCODE status data
              (chfl_topology_dihedrals_instructions dihedrals n)) ∧
      (∃ data', chfl_topology_dihedrals_instructions dihedrals n data = .ok data') ∧
      ((chfl_topology_dihedrals status dihedrals data n).1 = CAPIStatus.SUCESS ↔
        n = dihedrals.length) ∧
      (n ≠ dihedrals.length →
        (chfl_topology_dihedrals status dihedrals data n).1 = CAPIStatus.MEMORY)) ∧
    CAPIStatus.MEMORY = 3 ∧ CAPIStatus.SUCESS = 0 := by
  have hne : ∀ cls, catch_code cls ≠ CAPIStatus.SUCESS := by
    intro cls
    cases cls <;> decide
  have hmem : CAPIStatus.MEMORY ≠ CAPIStatus.SUCESS := by decide
  refine ⟨?_, ?_, ⟨rfl, rfl, rfl, rfl, rfl⟩, by decide, ?_, ?_, ?_, rfl, rfl⟩
  · cases h : instructions s with
    | error e => simp [CHFL_ERROR_WRAP_RETCODE, h, hne]
    | ok s' => simp [CHFL_ERROR_WRAP_RETCODE, h]
  · intro e h
    simp [CHFL_ERROR_WRAP_RETCODE, h, hne]
  · intro bonds data n
    refine ⟨?_, ⟨_, rfl⟩, ?_, ?_⟩
    · intro h
      subst h
      simp only [chfl_topology_bonds, ne_eq, not_true_eq_false, if_false]
      rfl
    · by_cases h : n = bonds.length
      · simp [chfl_topology_bonds, CHFL_ERROR_WRAP_RETCODE, h]
      · simp [chfl_topology_bonds, h, hmem]
    · intro h
      simp [chfl_topology_bonds, h]
  · intro angles data n
    refine ⟨?_, ⟨_, rfl⟩, ?_, ?_⟩
    · intro h
      subst h
      simp only [chfl_topology_angles, ne_eq, not_true_eq_false, if_false]
      rfl
    · by_cases h : n = angles.length
      · simp [chfl_topology_angles, CHFL_ERROR_WRAP_RETCODE, h]
      · simp [chfl_topology_angles, h, hmem]
    · intro h
      simp [chfl_topology_angles, h]
  · intro dihedrals data n
    refine ⟨?_, ⟨_, rfl⟩, ?_, ?_⟩
    · intro h
      subst h
      simp only [chfl_topology_dihedrals, ne_eq, not_true_eq_false, if_false]
      rfl
    · by_cases h : n = dihedrals.length
      · simp [chfl_topology_dihedrals, CHFL_ERROR_WRAP_RETCODE, h]
      · simp [chfl_topology_dihedrals, h, hmem]
    · intro h
      simp [chfl_topology_dihedrals, h]

/-! ## The last error and the array getters: theorems -/

theorem capi_call.run_last_error (status : CAPIStatus) (c : capi_call) :
    (c.failure = none → (c.run status).2 = status) ∧
    (∀ m, c.failure = some m → (c.run status).2.last_error = m) ∧
    (∀ code, (c.run status).1 = some code →
      (code ≠ CAPIStatus.SUCESS ↔ c.failure ≠ none)) := by
  have hne : ∀ cls, catch_code cls ≠ CAPIStatus.SUCESS := by
    intro cls
    cases cls <;> decide
  have hmem : CAPIStatus.MEMORY ≠ CAPIStatus.SUCESS := by decide
  cases c with
  | status_returning instructions =>
    cases instructions with
    | error e =>
      refine ⟨?_, ?_, ?_⟩
      · intro h
        simp [capi_call.failure] at h
      · intro m hm
        simp only [capi_call.failure, Option.some.injEq] at hm
        simp [capi_call.run, CHFL_ERROR_WRAP_RETCODE, hm]
      · intro code hcode
        simp only [capi_call.run, CHFL_ERROR_WRAP_RETCODE, Option.some.injEq] at hcode
        simp [capi_call.failure, ← hcode, hne]
    | ok u =>
      refine ⟨?_, ?_, ?_⟩
      · intro _
        simp [capi_call.run, CHFL_ERROR_WRAP_RETCODE]
      · intro m hm
        simp [capi_call.failure] at hm
      · intro code hcode
        simp only [capi_call.run, CHFL_ERROR_WRAP_RETCODE, Option.some.injEq] at hcode
        simp [capi_call.failure, ← hcode]
  | handle_returning instructions =>
    cases instructions with
    | error e =>
      refine ⟨?_, ?_, ?_⟩
      · intro h
        simp [capi_call.failure] at h
      · intro m hm
        simp only [capi_call.failure, Option.some.injEq] at hm
        simp [capi_call.run, CHFL_ERROR_WRAP, hm]
      · intro code hcode
        simp [capi_call.run] at hcode
    | ok u =>
      refine ⟨?_, ?_, ?_⟩
      · intro _
        simp [capi_call.run, CHFL_ERROR_WRAP]
      · intro m hm
        simp [capi_call.failure] at hm
      · intro code hcode
        simp [capi_call.run] at hcode
  | topology_bonds bonds data nbonds =>
    by_cases h : nbonds = bonds.length
    · refine ⟨?_, ?_, ?_⟩
      · intro _
        simp [capi_call.run, chfl_topology_bonds, CHFL_ERROR_WRAP_RETCODE, h]
      · intro m hm
        simp [capi_call.failure, h] at hm
      · intro code hcode
        simp only [capi_call.run, chfl_topology_bonds, CHFL_ERROR_WRAP_RETCODE, h,
          ne_eq, not_true_eq_false, if_false, Option.some.injEq] at hcode
        simp [capi_call.failure, h, ← hcode]
    · refine ⟨?_, ?_, ?_⟩
      · intro hf
        simp [capi_call.failure, h] at hf
      · intro m hm
        simp only [capi_call.failure, ne_eq, h, not_false_eq_true, if_true,
          Option.some.injEq] at hm
        simp [capi_call.run, chfl_topology_bonds, h, hm]
      · intro code hcode
        simp only [capi_call.run, chfl_topology_bonds, ne_eq, h, not_false_eq_true,
          if_true, Option.some.injEq] at hcode
        simp [capi_call.failure, h, ← hcode, hmem]
  | topology_angles angles data nangles =>
    by_cases h : nangles = angles.length
    · refine ⟨?_, ?_, ?_⟩
      · intro _
        simp [capi_call.run, chfl_topology_angles, CHFL_ERROR_WRAP_RETCODE, h]
      · intro m hm
        simp [capi_call.failure, h] at hm
      · intro code hcode
        simp only [capi_call.run, chfl_topology_angles, CHFL_ERROR_WRAP_RETCODE, h,
          ne_eq, not_true_eq_false, if_false, Option.some.injEq] at hcode
        simp [capi_call.failure, h, ← hcode]
    · refine ⟨?_, ?_, ?_⟩
      · intro hf
        simp [capi_call.failure, h] at hf
      · intro m hm
        simp only [capi_call.failure, ne_eq, h, not_false_eq_true, if_true,
          Option.some.injEq] at hm
        simp [capi_call.run, chfl_topology_angles, h, hm]
      · intro code hcode
        simp only [capi_call.run, chfl_topology_angles, ne_eq, h, not_false_eq_true,
          if_true, Option.some.injEq] at hcode
        simp [capi_call.failure, h, ← hcode, hmem]
  | topology_dihedrals dihedrals data ndihedrals =>
    by_cases h : ndihedrals = dihedrals.length
    · refine ⟨?_, ?_, ?_⟩
      · intro _
        simp [capi_call.run, chfl_topology_dihedrals, CHFL_ERROR_WRAP_RETCODE, h]
      · intro m hm
        simp [capi_call.failure, h] at hm
      · intro code hcode
        simp only [capi_call.run, chfl_topology_dihedrals, CHFL_ERROR_WRAP_RETCODE, h,
          ne_eq, not_true_eq_false, if_false, Option.some.injEq] at hcode
        simp [capi_call.failure, h, ← hcode]
    · refine ⟨?_, ?_, ?_⟩
      · intro hf
        simp [capi_call.failure, h] at hf
      · intro m hm
        simp only [capi_call.failure, ne_eq, h, not_false_eq_true, if_true,
          Option.some.injEq] at hm
        simp [capi_call.run, chfl_topology_dihedrals, h, hm]
      · intro code hcode
        simp only [capi_call.run, chfl_topology_dihedrals, ne_eq, h, not_false_eq_true,
          if_true, Option.some.injEq] at hcode
        simp [capi_call.failure, h, ← hcode, hmem]

theorem capi_calls_last_error (calls : List capi_call) :
    ∀ status : CAPIStatus,
      (capi_calls status calls).last_error
        = (most_recent_failure calls).getD status.last_error := by
  induction calls with
  | nil => intro status; rfl
  | cons c rest ih =>
    intro status
    have hstep : capi_calls status (c :: rest) = capi_calls (c.run status).2 rest := rfl
    have hmr : most_recent_failure (c :: rest)
        = (match most_recent_failure rest with
          | some m => some m
          | none => c.failure) := rfl
    rw [hstep, ih (c.run status).2, hmr]
    cases hrest : most_recent_failure rest with
    | some m => rfl
    | none =>
      cases hc : c.failure with
      | none =>
        rw [(capi_call.run_last_error status c).1 hc]
      | some m =>
        simp only [Option.getD_none, Option.getD_some]
        exact (capi_call.run_last_error status c).2.1 m hc

/-- C16. For every sequence of C API calls, `chfl_last_error` returns the
text of the most recent call that failed (and what it returned before the
sequence when none failed): every failing call, whether it returns a status
or a handle, the array size checks included, sets the stored message to the
text of its failure, and a call that does not fail leaves the stored message
unchanged; a status-returning call fails exactly when its status is not
`SUCESS`. -/
theorem last_error_is_most_recent_failure (status : CAPIStatus)
    (calls : List capi_call) :
    chfl_last_error (capi_calls status calls)
        = (most_recent_failure calls).getD (chfl_last_error status) ∧
    (∀ c : capi_call, ∀ m, c.failure = some m →
      chfl_last_error (c.run status).2 = m) ∧
    (∀ c : capi_call, c.failure = none →
      chfl_last_error (c.run status).2 = chfl_last_error status) ∧
    (∀ c : capi_call, ∀ code, (c.run status).1 = some code →
      (code ≠ CAPIStatus.SUCESS ↔ c.failure ≠ none)) := by
  refine ⟨capi_calls_last_error calls status, ?_, ?_, ?_⟩
  · intro c m hm
    exact (capi_call.run_last_error status c).2.1 m hm
  · intro c hc
    rw [(capi_call.run_last_error status c).1 hc]
  · intro c code hcode
    exact (capi_call.run_last_error status c).2.2 code hcode

theorem write_rows_apply {α β : Type} (items : List β) (row : β → α) (n : Nat)
    (data : Nat → α) (r : Nat) :
    write_rows items row n data r =
      if r < n then
        match items[r]? with
        | some x => row x
        | none => data r
      else data r := by
  unfold write_rows
  induction n with
  | zero => simp
  | succ k ih =>
    rw [List.range_succ, List.foldl_append]
    simp only [List.foldl_cons, List.foldl_nil]
    by_cases hrk : r = k
    · subst hrk
      cases hget : items[r]? with
      | some x => simp
      | none => simp [ih]
    · have hlt : r < k + 1 ↔ r < k := by omega
      cases hget : items[k]? with
      | some x =>
        simp only [Function.update_noteq hrk, ih, hlt]
      | none =>
        simp only [ih, hlt]

theorem bond.index_lt_of_new (b : bond) (h : ∃ i j, bond.new i j = some b) :
    b.index 0 < b.index 1 := by
  obtain ⟨i, j, hb⟩ := h
  unfold bond.new at hb
  by_cases hij : i = j
  · simp [hij] at hb
  · simp only [ne_eq, hij, not_false_eq_true, if_true, Option.some.injEq] at hb
    subst hb
    simp only [bond.index, bond.stored]
    omega

/-- C17. `chfl_topology_bonds(topology, data, n)` returns `MEMORY`, without
writing anything to `data`, exactly when `n` differs from the count that
`chfl_topology_bonds_count` reports; when `n` equals that count it returns
`SUCESS`, row `r` of `data` holds the two stored indices of bond `r`, in
order, the rows from `n` on are untouched, and `data[r][0] < data[r][1]` for
bonds built by the `bond` constructor.  `chfl_topology_angles` and
`chfl_topology_dihedrals` follow the same size rule against their own
counts. -/
theorem topology_array_getters_size_rule (status : CAPIStatus)
    (bonds : List bond) (angles : List angle) (dihedrals : List dihedral)
    (data2 : Nat → Nat × Nat) (data3 : Nat → Nat × Nat × Nat)
    (data4 : Nat → Nat × Nat × Nat × Nat) (n count : Nat) :
    ((chfl_topology_bonds_count status bonds count).1 = CAPIStatus.SUCESS ∧
      (chfl_topology_bonds_count status bonds count).2.2 = bonds.length ∧
      ((chfl_topology_bonds status bonds data2 n).1 = CAPIStatus.MEMORY ↔
        n ≠ (chfl_topology_bonds_count status bonds count).2.2) ∧
      (n ≠ bonds.length → (chfl_topology_bonds status bonds data2 n).2.2 = data2) ∧
      (n = bonds.length →
        (chfl_topology_bonds status bonds data2 n).1 = CAPIStatus.SUCESS ∧
        (∀ r (h : r < bonds.length),
          (chfl_topology_bonds status bonds data2 n).2.2 r
              = ((bonds.get ⟨r, h⟩).index 0, (bonds.get ⟨r, h⟩).index 1) ∧
            ((∀ b ∈ bonds, ∃ i j, bond.new i j = some b) →
              ((chfl_topology_bonds status bonds data2 n).2.2 r).1
                < ((chfl_topology_bonds status bonds data2 n).2.2 r).2)) ∧
        (∀ r, n ≤ r → (chfl_topology_bonds status bonds data2 n).2.2 r = data2 r))) ∧
    ((chfl_topology_angles_count status angles count).2.2 = angles.length ∧
      ((chfl_topology_angles status angles data3 n).1 = CAPIStatus.MEMORY ↔
        n ≠ (chfl_topology_angles_count status angles count).2.2) ∧
      (n ≠ angles.length → (chfl_topology_angles status angles data3 n).2.2 = data3) ∧
      (n = angles.length →
        (chfl_topology_angles status angles data3 n).1 = CAPIStatus.SUCESS)) ∧
    ((chfl_topology_dihedrals_count status dihedrals count).2.2 = dihedrals.length ∧
      ((chfl_topology_dihedrals status dihedrals data4 n).1 = CAPIStatus.MEMORY ↔
        n ≠ (chfl_topology_dihedrals_count status dihedrals count).2.2) ∧
      (n ≠ dihedrals.length →
        (chfl_topology_dihedrals status dihedrals data4 n).2.2 = data4) ∧
      (n = dihedrals.length →
        (chfl_topology_dihedrals status dihedrals data4 n).1 = CAPIStatus.SUCESS)) := by
  have hms : CAPIStatus.SUCESS ≠ CAPIStatus.MEMORY := by decide
  refine ⟨⟨rfl, rfl, ?_, ?_, ?_⟩, ⟨rfl, ?_, ?_, ?_⟩, ⟨rfl, ?_, ?_, ?_⟩⟩
  · by_cases h : n = bonds.length
    · simp [chfl_topology_bonds, chfl_topology_bonds_count, CHFL_ERROR_WRAP_RETCODE,
        h, hms]
    · simp [chfl_topology_bonds, chfl_topology_bonds_count, CHFL_ERROR_WRAP_RETCODE, h]
  · intro h
    simp [chfl_topology_bonds, h]
  · intro h
    have hres : (chfl_topology_bonds status bonds data2 n).2.2
        = write_rows bonds (fun b => (b.index 0, b.index 1)) n data2 := by
      simp [chfl_topology_bonds, CHFL_ERROR_WRAP_RETCODE, h]
    refine ⟨by simp [chfl_topology_bonds, CHFL_ERROR_WRAP_RETCODE, h], ?_, ?_⟩
    · intro r hr
      have hrow : (chfl_topology_bonds status bonds data2 n).2.2 r
          = ((bonds.get ⟨r, hr⟩).index 0, (bonds.get ⟨r, hr⟩).index 1) := by
        rw [hres, write_rows_apply]
        have hrn : r < n := by omega
        simp [hrn, List.getElem?_eq_getElem hr]
      refine ⟨hrow, ?_⟩
      intro hwf
      rw [hrow]
      exact bond.index_lt_of_new _ (hwf _ (List.get_mem bonds r hr))
    · intro r hr
      rw [hres, write_rows_apply]
      have hrn : ¬ r < n := by omega
      simp [hrn]
  · by_cases h : n = angles.length
    · simp [chfl_topology_angles, chfl_topology_angles_count, CHFL_ERROR_WRAP_RETCODE,
        h, hms]
    · simp [chfl_topology_angles, chfl_topology_angles_count, CHFL_ERROR_WRAP_RETCODE,
        h]
  · intro h
    simp [chfl_topology_angles, h]
  · intro h
    simp [chfl_topology_angles, CHFL_ERROR_WRAP_RETCODE, h]
  · by_cases h : n = dihedrals.length
    · simp [chfl_topology_dihedrals, chfl_topology_dihedrals_count,
        CHFL_ERROR_WRAP_RETCODE, h, hms]
    · simp [chfl_topology_dihedrals, chfl_topology_dihedrals_count,
        CHFL_ERROR_WRAP_RETCODE, h]
  · intro h
    simp [chfl_topology_dihedrals, h]
  · intro h
    simp [chfl_topology_dihedrals, CHFL_ERROR_WRAP_RETCODE, h]

theorem topology_array_getters_size_rule_witness :
    (chfl_topology_bonds ⟨""⟩ [⟨(0, 1)⟩, ⟨(1, 2)⟩] (fun _ => (7, 7)) 3).2.2
        = (fun _ => (7, 7)) ∧
      (chfl_topology_bonds ⟨""⟩ [⟨(0, 1)⟩, ⟨(1, 2)⟩] (fun _ => (7, 7)) 2).1
        = CAPIStatus.SUCESS :=
  ⟨(topology_array_getters_size_rule ⟨""⟩ [⟨(0, 1)⟩, ⟨(1, 2)⟩] [] []
      (fun _ => (7, 7)) (fun _ => (7, 7, 7)) (fun _ => (7, 7, 7, 7)) 3 0).1.2.2.2.1
      (by decide),
    ((topology_array_getters_size_rule ⟨""⟩ [⟨(0, 1)⟩, ⟨(1, 2)⟩] [] []
      (fun _ => (7, 7)) (fun _ => (7, 7, 7)) (fun _ => (7, 7, 7, 7)) 2 0).1.2.2.2.2
      rfl).1⟩

/-! ## Atom names, frame arrays, cell angles: theorems -/

theorem strcpy_written_substr_length (s : String) (n : Nat)
    (hnul : ∀ c ∈ s.data, c ≠ Char.ofNat 0) (hn : n ≤ s.data.length) :
    (strcpy_written (substr_from_start s n)).length = n + 1 := by
  unfold strcpy_written substr_from_start
  have hall : ∀ c ∈ s.data.take n, (decide (c ≠ Char.ofNat 0)) = true := by
    intro c hc
    simpa using hnul c (List.mem_of_mem_take hc)
  have htw : (s.data.take n).takeWhile (fun c => decide (c ≠ Char.ofNat 0))
      = s.data.take n := List.takeWhile_eq_self_iff.mpr hall
  simp only [List.length_append, List.length_singleton]
  rw [htw, List.length_take]
  omega

/-- C18 (the code at the failing input). For the atom named "He" and
`buffsize = 2`, `chfl_atom_name` returns `SUCESS` and `strcpy` writes three
characters, `H`, `e` and the terminating NUL: the NUL lands at `name[2]`,
one past the end of a buffer of two characters.  `chfl_atom_full_name` does
the same with the full name "Helium". -/
theorem chfl_atom_name_writes_past_buffer :
    strcpy_written (substr_from_start "He" 2) = ['H', 'e', Char.ofNat 0] ∧
    (chfl_atom_name ⟨""⟩ ⟨"He", 4, 0, AtomType.ELEMENT⟩ (fun _ => 'x') 2).1
      = CAPIStatus.SUCESS ∧
    (chfl_atom_name ⟨""⟩ ⟨"He", 4, 0, AtomType.ELEMENT⟩ (fun _ => 'x') 2).2.2 2
      = Char.ofNat 0 ∧
    (chfl_atom_full_name ⟨""⟩ "Helium" (fun _ => 'x') 2).2.2 2 = Char.ofNat 0 ∧
    'x' ≠ Char.ofNat 0 := by
  refine ⟨by decide, rfl, by decide, by decide, by decide⟩

theorem copy_rows_prefix (data : List Vector3D) (v : List Vector3D) :
    ∀ n, n ≤ data.length → n ≤ v.length →
      copy_rows data n v = some (data.take n ++ v.drop n) := by
  intro n
  induction n with
  | zero => intro _ _; simp [copy_rows]
  | succ k ih =>
    intro hd hv
    have hk := ih (by omega) (by omega)
    unfold copy_rows at hk ⊢
    rw [List.range_succ, List.foldlM_append, hk]
    have hkd : k < data.length := by omega
    have hget : data[k]? = some (data.get ⟨k, hkd⟩) := List.getElem?_eq_getElem hkd
    have hlen : k < (List.take k data ++ List.drop k v).length := by
      simp [List.length_take, List.length_drop]
      omega
    simp only [List.foldlM_cons, List.foldlM_nil, Option.some_bind, hget, hlen, if_true]
    simp only [bind, Option.bind, hlen, if_true, pure]
    congr 1
    have hdrop : List.drop k v = v.get ⟨k, by omega⟩ :: List.drop (k + 1) v :=
      List.drop_eq_getElem_cons (by omega)
    have htake : List.take (k + 1) data = List.take k data ++ [data.get ⟨k, hkd⟩] := by
      rw [List.take_succ, hget]
      rfl
    have hlk : (List.take k data).length = k := by
      rw [List.length_take]
      omega
    rw [hdrop, htake, List.set_append]
    simp only [hlk, Nat.lt_irrefl, if_false, Nat.sub_self, List.set_cons_zero,
      List.append_assoc, List.singleton_append]

theorem chfl_frame_set_positions_copies (init : Vector3D) (status : CAPIStatus)
    (frame : Frame) (data : List Vector3D) :
    chfl_frame_set_positions init status frame data data.length
      = some (CAPIStatus.SUCESS, status, { frame with _positions := data }) := by
  have hlen : (Array3D_resize frame._positions data.length init).length
      = data.length := by
    simp only [Array3D_resize, List.length_append, List.length_take,
      List.length_replicate]
    omega
  have hcopy := copy_rows_prefix data (Array3D_resize frame._positions data.length init)
    data.length (Nat.le_refl _) (by omega)
  have hdrop : List.drop data.length
      (Array3D_resize frame._positions data.length init) = [] := by
    apply List.drop_eq_nil_of_le
    omega
  rw [List.take_length, hdrop, List.append_nil] at hcopy
  simp only [chfl_frame_set_positions, Frame.natoms, hlen, hcopy,
    CHFL_ERROR_WRAP_RETCODE]

/-- C19 (the code at the failing input). On a frame without atoms and the
two rows `(1,2,3)`, `(4,5,6)`, `chfl_frame_set_positions(frame, data, 2)`
returns `SUCESS` and the frame holds the two rows as positions;
`chfl_frame_set_velocities(frame, data, 2)` also returns `SUCESS`, but the
frame holds two value-initialised velocities, which are not the two rows:
its copy loop runs up to `frame->natoms()`, the number of positions, here
zero. -/
theorem chfl_frame_set_velocities_copies_no_row (init : Vector3D)
    (status : CAPIStatus) :
    chfl_frame_set_positions init status Frame.without_atoms [(1, 2, 3), (4, 5, 6)] 2
      = some (CAPIStatus.SUCESS, status,
          { Frame.without_atoms with _positions := [(1, 2, 3), (4, 5, 6)] }) ∧
    chfl_frame_set_velocities init status Frame.without_atoms [(1, 2, 3), (4, 5, 6)] 2
      = some (CAPIStatus.SUCESS, status,
          { Frame.without_atoms with _velocities := [init, init] }) ∧
    [init, init] ≠ [((1 : Rat), (2 : Rat), (3 : Rat)), (4, 5, 6)] := by
  refine ⟨rfl, rfl, ?_⟩
  intro h
  simp only [List.cons.injEq, and_true] at h
  obtain ⟨h1, h2⟩ := h
  rw [h1] at h2
  revert h2
  decide

theorem dihedral.new_of_adjacent (a b c d : Nat) (hab : a ≠ b) (hbc : b ≠ c)
    (hcd : c ≠ d) : dihedral.new a b c d = some (dihedral.stored a b c d) := by
  simp [dihedral.new, hab, hbc, hcd]

theorem dihedral.stored_data (a b c d : Nat) :
    (dihedral.stored a b c d)._data = (a, b, c, d) ∨
      (dihedral.stored a b c d)._data = (d, c, b, a) := by
  unfold dihedral.stored
  split
  · exact Or.inl rfl
  · exact Or.inr rfl

theorem dihedral.stored_reverse (a b c d : Nat) (h : max a b ≠ max c d) :
    dihedral.stored d c b a = dihedral.stored a b c d := by
  unfold dihedral.stored
  by_cases h1 : max a b < max c d
  · have h2 : ¬ max d c < max b a := by omega
    simp [h1, h2]
  · have h2 : max d c < max b a := by omega
    simp [h1, h2]

theorem dihedral.eq_iff (x y : dihedral) : x.eq y = true ↔ x = y := by
  obtain ⟨⟨x0, x1, x2, x3⟩⟩ := x
  obtain ⟨⟨y0, y1, y2, y3⟩⟩ := y
  simp [dihedral.eq, dihedral.index, and_assoc]

/-- C25. For every quadruple of pairwise distinct indices `(a,b,c,d)`, both
`dihedral(a,b,c,d)` and `dihedral(d,c,b,a)` are constructed and they are equal
under `dihedral::operator==`, the stored form satisfies
`max(stored[0], stored[1]) < max(stored[2], stored[3])` strictly, and the
dihedral built from the four stored indices is the same dihedral. -/
theorem dihedral_pairwise_distinct (a b c d : Nat) (hab : a ≠ b) (hac : a ≠ c)
    (had : a ≠ d) (hbc : b ≠ c) (hbd : b ≠ d) (hcd : c ≠ d) :
    ∃ x y, dihedral.new a b c d = some x ∧ dihedral.new d c b a = some y ∧
      x.eq y = true ∧
      max (x.index 0) (x.index 1) < max (x.index 2) (x.index 3) ∧
      ∃ z, dihedral.new (x.index 0) (x.index 1) (x.index 2) (x.index 3) = some z ∧
        z.eq x = true := by
  have hmax : max a b ≠ max c d := by omega
  refine ⟨dihedral.stored a b c d, dihedral.stored d c b a,
    dihedral.new_of_adjacent a b c d hab hbc hcd,
    dihedral.new_of_adjacent d c b a (Ne.symm hcd) (Ne.symm hbc) (Ne.symm hab), ?_, ?_, ?_⟩
  · rw [dihedral.stored_reverse a b c d hmax, dihedral.eq_iff]
  · unfold dihedral.stored
    by_cases h1 : max a b < max c d
    · simp only [h1, if_true, dihedral.index]
    · simp only [h1, if_false, dihedral.index]
      omega
  · unfold dihedral.stored
    by_cases h1 : max a b < max c d
    · simp only [h1, if_true, dihedral.index]
      refine ⟨dihedral.stored a b c d, dihedral.new_of_adjacent a b c d hab hbc hcd, ?_⟩
      rw [dihedral.eq_iff]
      simp [dihedral.stored, h1]
    · simp only [h1, if_false, dihedral.index]
      have h2 : max d c < max b a := by omega
      refine ⟨dihedral.stored d c b a,
        dihedral.new_of_adjacent d c b a (Ne.symm hcd) (Ne.symm hbc) (Ne.symm hab), ?_⟩
      rw [dihedral.eq_iff]
      simp [dihedral.stored, h2]

theorem dihedral_pairwise_distinct_witness :
    ∃ x y, dihedral.new 7 2 5 3 = some x ∧ dihedral.new 3 5 2 7 = some y ∧
      x.eq y = true ∧
      max (x.index 0) (x.index 1) < max (x.index 2) (x.index 3) ∧
      ∃ z, dihedral.new (x.index 0) (x.index 1) (x.index 2) (x.index 3) = some z ∧
        z.eq x = true :=
  dihedral_pairwise_distinct 7 2 5 3 (by decide) (by decide) (by decide) (by decide)
    (by decide) (by decide)

/-- C26. For every quadruple with distinct adjacent indices, `dihedral(a,b,c,d)`
is constructed and the sequence it stores is `(a,b,c,d)` or its reverse
`(d,c,b,a)`; hence whenever `dihedral(a,b,c,d) == dihedral(a',b',c',d')` for
two such quadruples, the two quadruples are identical or reverses of each
other. -/
theorem dihedral_stored_is_input_or_reverse (a b c d a' b' c' d' : Nat)
    (hab : a ≠ b) (hbc : b ≠ c) (hcd : c ≠ d)
    (hab' : a' ≠ b') (hbc' : b' ≠ c') (hcd' : c' ≠ d') :
    ∃ x y, dihedral.new a b c d = some x ∧ dihedral.new a' b' c' d' = some y ∧
      (x._data = (a, b, c, d) ∨ x._data = (d, c, b, a)) ∧
      (y._data = (a', b', c', d') ∨ y._data = (d', c', b', a')) ∧
      (x.eq y = true →
        (a, b, c, d) = (a', b', c', d') ∨ (a, b, c, d) = (d', c', b', a')) := by
  refine ⟨dihedral.stored a b c d, dihedral.stored a' b' c' d',
    dihedral.new_of_adjacent a b c d hab hbc hcd,
    dihedral.new_of_adjacent a' b' c' d' hab' hbc' hcd',
    dihedral.stored_data a b c d, dihedral.stored_data a' b' c' d', ?_⟩
  intro heq
  rw [dihedral.eq_iff] at heq
  have hdata := congrArg dihedral._data heq
  rcases dihedral.stored_data a b c d with h1 | h1 <;>
    rcases dihedral.stored_data a' b' c' d' with h2 | h2 <;>
    rw [h1, h2] at hdata <;>
    simp only [Prod.mk.injEq] at hdata ⊢ <;>
    omega

theorem dihedral_stored_is_input_or_reverse_witness :
    ∃ x y, dihedral.new 0 1 2 3 = some x ∧ dihedral.new 3 2 1 0 = some y ∧
      (x._data = (0, 1, 2, 3) ∨ x._data = (3, 2, 1, 0)) ∧
      (y._data = (3, 2, 1, 0) ∨ y._data = (0, 1, 2, 3)) ∧
      (x.eq y = true →
        ((0 : Nat), (1 : Nat), (2 : Nat), (3 : Nat)) = (3, 2, 1, 0) ∨
          ((0 : Nat), (1 : Nat), (2 : Nat), (3 : Nat)) = (0, 1, 2, 3)) :=
  dihedral_stored_is_input_or_reverse 0 1 2 3 3 2 1 0 (by decide) (by decide)
    (by decide) (by decide) (by decide) (by decide)

/-! ## Registration round trip and the size-check messages: theorems -/

/-- C27. Registration round-trips through lookup.  After
`register_extension(key, tb)` succeeds, `by_extension(key)` returns `tb`, every
other extension keeps its binding and the name map is untouched, so that
`format` returns what it returned before; after `register_format(key, tb)`
succeeds, `format(key)` returns `tb`, every other name keeps its binding and
the extension map is untouched, so that `by_extension` returns what it
returned before. -/
theorem registration_round_trip (f : TrajectoryFactory) (key : String)
    (tb : trajectory_builder_t) :
    (∀ f', f.register_extension key tb = .ok f' →
      f'.by_extension key = .ok (tb, f') ∧
      (∀ k, k ≠ key → f'.extensions.find k = f.extensions.find k) ∧
      f'.formats = f.formats ∧
      (∀ k, (f'.format k).map Prod.fst = (f.format k).map Prod.fst)) ∧
    (∀ f', f.register_format key tb = .ok f' →
      f'.format key = .ok (tb, f') ∧
      (∀ k, k ≠ key → f'.formats.find k = f.formats.find k) ∧
      f'.extensions = f.extensions ∧
      (∀ k, (f'.by_extension k).map Prod.fst = (f.by_extension k).map Prod.fst)) := by
  constructor
  · intro f' hreg
    unfold TrajectoryFactory.register_extension at hreg
    by_cases hb : f.extensions.find key = none
    · simp only [hb, ne_eq, not_true_eq_false, if_false, Except.ok.injEq] at hreg
      subst hreg
      have hfind : (f.extensions.emplace key tb).find key = some tb := by
        rw [trajectory_map_t.find_emplace, hb]
        simp
      refine ⟨?_, ?_, rfl, ?_⟩
      · simp [TrajectoryFactory.by_extension, trajectory_map_t.subscript, hfind]
      · intro k hk
        simp only [trajectory_map_t.find_emplace]
        cases hfk : f.extensions.find k with
        | none => simp [hk]
        | some v => rfl
      · intro k
        unfold TrajectoryFactory.format
        by_cases hk : f.formats.find k = none
        · simp only [hk, if_true]
        · simp only [hk, if_false]
          rfl
    · simp [hb] at hreg
  · intro f' hreg
    unfold TrajectoryFactory.register_format at hreg
    by_cases hb : f.formats.find key = none
    · simp only [hb, ne_eq, not_true_eq_false, if_false, Except.ok.injEq] at hreg
      subst hreg
      have hfind : (f.formats.emplace key tb).find key = some tb := by
        rw [trajectory_map_t.find_emplace, hb]
        simp
      refine ⟨?_, ?_, rfl, ?_⟩
      · simp [TrajectoryFactory.format, trajectory_map_t.subscript, hfind]
      · intro k hk
        simp only [trajectory_map_t.find_emplace]
        cases hfk : f.formats.find k with
        | none => simp [hk]
        | some v => rfl
      · intro k
        unfold TrajectoryFactory.by_extension
        by_cases hk : f.extensions.find k = none
        · simp only [hk, if_true]
        · simp only [hk, if_false]
          rfl
    · simp [hb] at hreg

theorem registration_round_trip_witness :
    (⟨⟨[]⟩, ⟨[("nc", ⟨5, 6⟩), ("xyz", ⟨1, 2⟩)]⟩⟩ : TrajectoryFactory).by_extension "xyz"
      = .ok (⟨1, 2⟩, ⟨⟨[]⟩, ⟨[("nc", ⟨5, 6⟩), ("xyz", ⟨1, 2⟩)]⟩⟩) :=
  ((registration_round_trip ⟨⟨[]⟩, ⟨[("nc", ⟨5, 6⟩)]⟩⟩ "xyz" ⟨1, 2⟩).1
    ⟨⟨[]⟩, ⟨[("nc", ⟨5, 6⟩), ("xyz", ⟨1, 2⟩)]⟩⟩ rfl).1

/-- C30 (the code at the failing input). With no dihedral in the topology and
an array of one row, `chfl_topology_dihedrals` rejects the size, returns
`MEMORY` and records "Wrong data size in function 'chfl_topology_bonds'.":
the very message `chfl_topology_bonds` records, which does not contain the
name `chfl_topology_dihedrals`.  The messages of `chfl_topology_bonds` and
`chfl_topology_angles` name their own function. -/
theorem chfl_topology_dihedrals_message_names_bonds :
    (chfl_topology_dihedrals ⟨""⟩ [] (fun _ => (7, 7, 7, 7)) 1).1 = CAPIStatus.MEMORY ∧
    chfl_last_error (chfl_topology_dihedrals ⟨""⟩ [] (fun _ => (7, 7, 7, 7)) 1).2.1
      = "Wrong data size in function 'chfl_topology_bonds'." ∧
    chfl_last_error (chfl_topology_dihedrals ⟨""⟩ [] (fun _ => (7, 7, 7, 7)) 1).2.1
      = chfl_last_error (chfl_topology_bonds ⟨""⟩ [] (fun _ => (7, 7)) 1).2.1 ∧
    ¬ ("chfl_topology_dihedrals".data <:+:
        (chfl_last_error
          (chfl_topology_dihedrals ⟨""⟩ [] (fun _ => (7, 7, 7, 7)) 1).2.1).data) ∧
    "chfl_topology_bonds".data <:+:
      (chfl_last_error (chfl_topology_bonds ⟨""⟩ [] (fun _ => (7, 7)) 1).2.1).data ∧
    "chfl_topology_angles".data <:+:
      (chfl_last_error (chfl_topology_angles ⟨""⟩ [] (fun _ => (7, 7, 7)) 1).2.1).data := by
  refine ⟨rfl, rfl, rfl, by decide, by decide, by decide⟩

/-! ## Topology.resize and the raw frame arrays: theorems -/

theorem Topology.natoms_resize (t : Topology) (n : Nat) : (t.resize n).natoms = n := by
  simp only [Topology.natoms, Topology.resize, List.length_append, List.length_take,
    List.length_replicate]
  omega

theorem Topology.resize_indexes_valid (t : Topology) (n : Nat)
    (hvalid : t.indexes_valid) (htemplate : 0 < t._templates.length) :
    (t.resize n).indexes_valid := by
  intro i hi
  simp only [Topology.resize, List.mem_append] at hi
  rcases hi with hi | hi
  · exact hvalid i (List.mem_of_mem_take hi)
  · rw [List.eq_of_mem_replicate hi]
    exact htemplate

/-- C29 (the code at the failing input). The topology without atoms and
without templates satisfies the invariant (it has no index at all); after
`resize(1)`, `natoms()` is 1 and the one position holds the index 0, which is
not a valid index into the empty template list, so `operator[](0)` refers to
no template. -/
theorem Topology_resize_breaks_indexes_valid :
    (⟨[], [], ⟨[], [], [], true⟩⟩ : Topology).indexes_valid ∧
    ((⟨[], [], ⟨[], [], [], true⟩⟩ : Topology).resize 1).natoms = 1 ∧
    ((⟨[], [], ⟨[], [], [], true⟩⟩ : Topology).resize 1)._atoms = [0] ∧
    ((⟨[], [], ⟨[], [], [], true⟩⟩ : Topology).resize 1)._templates = [] ∧
    ¬ ((⟨[], [], ⟨[], [], [], true⟩⟩ : Topology).resize 1).indexes_valid ∧
    ((⟨[], [], ⟨[], [], [], true⟩⟩ : Topology).resize 1).subscript 0 = none := by
  refine ⟨?_, rfl, rfl, rfl, ?_, rfl⟩
  · intro i hi
    cases hi
  · intro h
    have h0 := h 0 (by simp [Topology.resize])
    simp [Topology.resize] at h0

/-- C24. For every frame and every size, `raw_positions(data, size)` throws
`MemoryError` when `size` differs from the frame's number of atoms, and
`chfl_frame_positions` then returns `MEMORY` and leaves `data` as it was;
`raw_velocities(data, size)` does the same on a frame that has velocities; on
a frame without velocities `raw_velocities` does not throw, whatever the size,
`chfl_frame_velocities` returns `SUCESS`, every one of the `size` rows is
`(0,0,0)` and the rows after them are untouched. -/
theorem raw_arrays_size_rule (status : CAPIStatus) (frame : Frame)
    (data : Nat → Vector3D) (size : Nat) :
    (size ≠ frame.natoms →
      frame.raw_positions data size = .error ⟨ErrorClass.MemoryError, ""⟩ ∧
      (chfl_frame_positions status frame data size).1 = CAPIStatus.MEMORY ∧
      (chfl_frame_positions status frame data size).2.2 = data) ∧
    (frame.has_velocities = true → size ≠ frame.natoms →
      frame.raw_velocities data size = .error ⟨ErrorClass.MemoryError, ""⟩ ∧
      (chfl_frame_velocities status frame data size).1 = CAPIStatus.MEMORY ∧
      (chfl_frame_velocities status frame data size).2.2 = data) ∧
    (frame.has_velocities = false →
      (∃ filled, frame.raw_velocities data size = .ok filled) ∧
      (chfl_frame_velocities status frame data size).1 = CAPIStatus.SUCESS ∧
      (∀ r, r < size →
        (chfl_frame_velocities status frame data size).2.2 r = (0, 0, 0)) ∧
      (∀ r, size ≤ r →
        (chfl_frame_velocities status frame data size).2.2 r = data r)) := by
  refine ⟨?_, ?_, ?_⟩
  · intro h
    have herr : frame.raw_positions data size = .error ⟨ErrorClass.MemoryError, ""⟩ := by
      simp [Frame.raw_positions, h]
    exact ⟨herr, by simp [chfl_frame_positions, CHFL_ERROR_WRAP_RETCODE, herr, catch_code],
      by simp [chfl_frame_positions, CHFL_ERROR_WRAP_RETCODE, herr]⟩
  · intro hv h
    have herr : frame.raw_velocities data size = .error ⟨ErrorClass.MemoryError, ""⟩ := by
      simp [Frame.raw_velocities, hv, h]
    exact ⟨herr, by simp [chfl_frame_velocities, CHFL_ERROR_WRAP_RETCODE, herr, catch_code],
      by simp [chfl_frame_velocities, CHFL_ERROR_WRAP_RETCODE, herr]⟩
  · intro hv
    have hok : frame.raw_velocities data size
        = .ok (write_rows (List.replicate size ((0 : Rat), (0 : Rat), (0 : Rat)))
            (fun v => v) size data) := by
      simp [Frame.raw_velocities, hv]
    have hres : (chfl_frame_velocities status frame data size).2.2
        = write_rows (List.replicate size ((0 : Rat), (0 : Rat), (0 : Rat)))
            (fun v => v) size data := by
      simp [chfl_frame_velocities, CHFL_ERROR_WRAP_RETCODE, hok]
    refine ⟨⟨_, hok⟩, by simp [chfl_frame_velocities, CHFL_ERROR_WRAP_RETCODE, hok],
      ?_, ?_⟩
    · intro r hr
      rw [hres, write_rows_apply]
      simp [hr, List.getElem?_replicate]
    · intro r hr
      rw [hres, write_rows_apply]
      have hnot : ¬ r < size := by omega
      simp [hnot]

theorem raw_arrays_size_rule_witness :
    Frame.without_atoms.raw_positions (fun _ => (9, 9, 9)) 3
        = .error ⟨ErrorClass.MemoryError, ""⟩ ∧
      (chfl_frame_velocities ⟨""⟩ Frame.without_atoms (fun _ => (9, 9, 9)) 3).2.2 2
        = (0, 0, 0) :=
  ⟨((raw_arrays_size_rule ⟨""⟩ Frame.without_atoms (fun _ => (9, 9, 9)) 3).1
      (by decide)).1,
    ((raw_arrays_size_rule ⟨""⟩ Frame.without_atoms (fun _ => (9, 9, 9)) 3).2.2
      rfl).2.2.1 2 (by decide)⟩

/-! ## register_all_formats: theorems -/

theorem trajectory_map_t.emplace_nonempty_key (m : trajectory_map_t) (key : String)
    (tb : trajectory_builder_t) (h : key ≠ "" → m.find key = none) :
    (key ≠ "" → (if key ≠ "" then m.emplace key tb else m).find key = some tb) ∧
    (∀ k v, m.find k = some v →
      (if key ≠ "" then m.emplace key tb else m).find k = some v) ∧
    (∀ k, m.find k = none → (key = k → k = "") →
      (if key ≠ "" then m.emplace key tb else m).find k = none) := by
  by_cases hkey : key = ""
  · simp only [hkey, ne_eq, not_true_eq_false, if_false]
    exact ⟨fun h => h.elim, fun _ _ h => h, fun _ h _ => h⟩
  · simp only [ne_eq, hkey, not_false_eq_true, if_true, forall_true_left]
    refine ⟨?_, ?_, ?_⟩
    · rw [trajectory_map_t.find_emplace, h hkey]
      simp
    · intro k v hk
      rw [trajectory_map_t.find_emplace, hk]
    · intro k hk hne
      rw [trajectory_map_t.find_emplace, hk]
      have hkk : k ≠ key := by
        intro heq
        exact hkey (heq ▸ hne heq.symm)
      simp [hkk]

theorem register_all_formats_ok (l : List builtin_format) :
    ∀ F E : trajectory_map_t,
      l.Pairwise (fun S T => S.name ≠ "" → T.name ≠ "" → S.name ≠ T.name) →
      l.Pairwise (fun S T =>
        S.extension ≠ "" → T.extension ≠ "" → S.extension ≠ T.extension) →
      (∀ T ∈ l, T.name ≠ "" → F.find T.name = none) →
      (∀ T ∈ l, T.extension ≠ "" → E.find T.extension = none) →
      ∃ F' E', register_all_formats F E l = .ok (F', E') ∧
        (∀ T ∈ l, T.name ≠ "" → F'.find T.name = some T.creator) ∧
        (∀ T ∈ l, T.extension ≠ "" → E'.find T.extension = some T.creator) ∧
        (∀ k v, F.find k = some v → F'.find k = some v) ∧
        (∀ k v, E.find k = some v → E'.find k = some v) ∧
        (∀ k, F.find k = none → (∀ T ∈ l, T.name = k → k = "") → F'.find k = none) ∧
        (∀ k, E.find k = none → (∀ T ∈ l, T.extension = k → k = "") →
          E'.find k = none) := by
  induction l with
  | nil =>
    intro F E _ _ _ _
    exact ⟨F, E, rfl, by simp, by simp, fun _ _ h => h, fun _ _ h => h,
      fun _ h _ => h, fun _ h _ => h⟩
  | cons T rest ih =>
    intro F E hnames hexts hF hE
    obtain ⟨hTn, hrn⟩ := List.pairwise_cons.mp hnames
    obtain ⟨hTe, hre⟩ := List.pairwise_cons.mp hexts
    have hFT : T.name ≠ "" → F.find T.name = none := hF T (List.mem_cons_self _ _)
    have hET : T.extension ≠ "" → E.find T.extension = none :=
      hE T (List.mem_cons_self _ _)
    obtain ⟨hF1, hF2, hF3⟩ := trajectory_map_t.emplace_nonempty_key F T.name T.creator hFT
    obtain ⟨hE1, hE2, hE3⟩ :=
      trajectory_map_t.emplace_nonempty_key E T.extension T.creator hET
    have hone : register_all_formats_one F E T
        = .ok (if T.name ≠ "" then F.emplace T.name T.creator else F,
            if T.extension ≠ "" then E.emplace T.extension T.creator else E) := by
      unfold register_all_formats_one
      have c1 : ¬ (T.extension ≠ "" ∧ E.find T.extension ≠ none) := fun h => h.2 (hET h.1)
      have c2 : ¬ (T.name ≠ "" ∧ F.find T.name ≠ none) := fun h => h.2 (hFT h.1)
      rw [if_neg c1, if_neg c2]
    have hFrest : ∀ S ∈ rest, S.name ≠ "" →
        (if T.name ≠ "" then F.emplace T.name T.creator else F).find S.name = none := by
      intro S hS hSn
      apply hF3 S.name (hF S (List.mem_cons_of_mem _ hS) hSn)
      intro heq
      by_cases hT : T.name = ""
      · rw [← heq, hT]
      · exact absurd heq (hTn S hS hT hSn)
    have hErest : ∀ S ∈ rest, S.extension ≠ "" →
        (if T.extension ≠ "" then E.emplace T.extension T.creator else E).find
          S.extension = none := by
      intro S hS hSn
      apply hE3 S.extension (hE S (List.mem_cons_of_mem _ hS) hSn)
      intro heq
      by_cases hT : T.extension = ""
      · rw [← heq, hT]
      · exact absurd heq (hTe S hS hT hSn)
    obtain ⟨F', E', hrun, hn, he, hpF, hpE, hnF, hnE⟩ := ih _ _ hrn hre hFrest hErest
    refine ⟨F', E', ?_, ?_, ?_, ?_, ?_, ?_, ?_⟩
    · simp only [register_all_formats, hone]
      exact hrun
    · intro S hS hSn
      rcases List.mem_cons.mp hS with rfl | hS
      · exact hpF _ _ (hF1 hSn)
      · exact hn S hS hSn
    · intro S hS hSn
      rcases List.mem_cons.mp hS with rfl | hS
      · exact hpE _ _ (hE1 hSn)
      · exact he S hS hSn
    · intro k v hk
      exact hpF k v (hF2 k v hk)
    · intro k v hk
      exact hpE k v (hE2 k v hk)
    · intro k hk hall
      exact hnF k (hF3 k hk (hall T (List.mem_cons_self _ _)))
        (fun S hS => hall S (List.mem_cons_of_mem _ hS))
    · intro k hk hall
      exact hnE k (hE3 k hk (hall T (List.mem_cons_self _ _)))
        (fun S hS => hall S (List.mem_cons_of_mem _ hS))

/-- C28. Starting from empty maps, the constructor of the factory runs
`register_all_formats` over the list of built-in formats.  When the non-empty
names of the list are pairwise distinct and its non-empty extensions are
pairwise distinct, it succeeds, whatever the length of the list; afterwards
`by_extension` on each format's non-empty extension and `format` on each
format's non-empty name return that format's own builder, and no entry exists
under the empty key in either map. -/
theorem register_all_formats_builtin (formats_list : List builtin_format)
    (hnames : formats_list.Pairwise
      (fun S T => S.name ≠ "" → T.name ≠ "" → S.name ≠ T.name))
    (hexts : formats_list.Pairwise
      (fun S T => S.extension ≠ "" → T.extension ≠ "" → S.extension ≠ T.extension)) :
    ∃ f, TrajectoryFactory.new formats_list = .ok f ∧
      (∀ T ∈ formats_list, T.extension ≠ "" →
        f.by_extension T.extension = .ok (T.creator, f)) ∧
      (∀ T ∈ formats_list, T.name ≠ "" → f.format T.name = .ok (T.creator, f)) ∧
      f.formats.find "" = none ∧ f.extensions.find "" = none ∧
      (∃ e, f.format "" = .error e) ∧ (∃ e, f.by_extension "" = .error e) := by
  obtain ⟨F', E', hrun, hn, he, _, _, hnF, hnE⟩ :=
    register_all_formats_ok formats_list ⟨[]⟩ ⟨[]⟩ hnames hexts
      (fun _ _ _ => rfl) (fun _ _ _ => rfl)
  have hF0 : F'.find "" = none := hnF "" rfl (fun _ _ _ => rfl)
  have hE0 : E'.find "" = none := hnE "" rfl (fun _ _ _ => rfl)
  refine ⟨⟨F', E'⟩, ?_, ?_, ?_, hF0, hE0, ?_, ?_⟩
  · simp [TrajectoryFactory.new, hrun]
  · intro T hT hTe
    simp [TrajectoryFactory.by_extension, trajectory_map_t.subscript, he T hT hTe]
  · intro T hT hTn
    simp [TrajectoryFactory.format, trajectory_map_t.subscript, hn T hT hTn]
  · exact (TrajectoryFactory.format_error_iff ⟨F', E'⟩ "").mpr hF0
  · exact (TrajectoryFactory.by_extension_error_iff ⟨F', E'⟩ "").mpr hE0

theorem register_all_formats_builtin_witness :
    ∃ f, TrajectoryFactory.new
        [⟨".xyz", "XYZ", ⟨1, 2⟩⟩, ⟨".nc", "AmberNetCDF", ⟨3, 4⟩⟩, ⟨"", "VMD", ⟨5, 6⟩⟩]
        = .ok f ∧
      (∀ T ∈ [(⟨".xyz", "XYZ", ⟨1, 2⟩⟩ : builtin_format),
          ⟨".nc", "AmberNetCDF", ⟨3, 4⟩⟩, ⟨"", "VMD", ⟨5, 6⟩⟩], T.extension ≠ "" →
        f.by_extension T.extension = .ok (T.creator, f)) ∧
      (∀ T ∈ [(⟨".xyz", "XYZ", ⟨1, 2⟩⟩ : builtin_format),
          ⟨".nc", "AmberNetCDF", ⟨3, 4⟩⟩, ⟨"", "VMD", ⟨5, 6⟩⟩], T.name ≠ "" →
        f.format T.name = .ok (T.creator, f)) ∧
      f.formats.find "" = none ∧ f.extensions.find "" = none ∧
      (∃ e, f.format "" = .error e) ∧ (∃ e, f.by_extension "" = .error e) :=
  register_all_formats_builtin
    [⟨".xyz", "XYZ", ⟨1, 2⟩⟩, ⟨".nc", "AmberNetCDF", ⟨3, 4⟩⟩, ⟨"", "VMD", ⟨5, 6⟩⟩]
    (by decide) (by decide)

/-! ## recalculate: theorems -/

theorem bond.stored_comm (a b : Nat) : bond.stored a b = bond.stored b a := by
  simp [bond.stored, min_comm, max_comm]

theorem mem_neighbours (bonds : List bond)
    (hwf : ∀ b ∈ bonds, b.index 0 < b.index 1) (m x : Nat) :
    x ∈ neighbours bonds m ↔ bond.stored x m ∈ bonds := by
  unfold neighbours
  rw [List.mem_filterMap]
  constructor
  · rintro ⟨bd, hbd, hf⟩
    have hlt := hwf bd hbd
    obtain ⟨⟨p, q⟩⟩ := bd
    simp only [bond.index] at hf hlt
    have hst : bond.stored x m = ⟨(p, q)⟩ := by
      by_cases h0 : p = m
      · simp only [h0, if_true, Option.some.injEq] at hf
        subst h0 hf
        simp only [bond.stored, bond.mk.injEq, Prod.mk.injEq]
        omega
      · by_cases h1 : q = m
        · simp only [h0, h1, if_true, if_false, Option.some.injEq] at hf
          subst h1 hf
          simp only [bond.stored, bond.mk.injEq, Prod.mk.injEq]
          omega
        · simp [h0, h1] at hf
    rw [hst]
    exact hbd
  · intro h
    have hlt := hwf _ h
    refine ⟨bond.stored x m, h, ?_⟩
    simp only [bond.index, bond.stored] at hlt ⊢
    by_cases hxm : x < m
    · have h1 : min x m = x := by omega
      have h2 : max x m = m := by omega
      have h3 : x ≠ m := by omega
      simp [h1, h2, h3]
    · have h1 : min x m = m := by omega
      have h2 : max x m = x := by omega
      simp [h1, h2]

theorem mem_bonded_atoms_of_stored (bonds : List bond) (a m : Nat)
    (h : bond.stored a m ∈ bonds) : m ∈ bonded_atoms bonds := by
  unfold bonded_atoms
  rw [List.mem_flatMap]
  refine ⟨bond.stored a m, h, ?_⟩
  simp only [bond.index, bond.stored, List.mem_cons, List.mem_singleton, List.not_mem_nil,
    or_false]
  omega

theorem angle.stored_eq_iff (a m b a' m' b' : Nat) :
    angle.stored a m b = angle.stored a' m' b' ↔
      m = m' ∧ ((a = a' ∧ b = b') ∨ (a = b' ∧ b = a')) := by
  simp only [angle.stored, angle.mk.injEq, Prod.mk.injEq]
  omega

theorem mem_derive_angles (bonds : List bond)
    (hwf : ∀ b ∈ bonds, b.index 0 < b.index 1) (a m b : Nat) :
    angle.stored a m b ∈ derive_angles bonds ↔
      a ≠ b ∧ bond.stored a m ∈ bonds ∧ bond.stored m b ∈ bonds := by
  unfold derive_angles
  rw [List.mem_dedup]
  simp only [List.mem_flatMap, List.mem_map, List.mem_filter, decide_eq_true_eq]
  constructor
  · rintro ⟨m', _, a', ha', b', ⟨hb', hne⟩, heq⟩
    rw [mem_neighbours bonds hwf] at ha' hb'
    rw [angle.stored_eq_iff] at heq
    obtain ⟨rfl, (⟨rfl, rfl⟩ | ⟨rfl, rfl⟩)⟩ := heq
    · exact ⟨hne, ha', by rw [bond.stored_comm]; exact hb'⟩
    · exact ⟨Ne.symm hne, hb', by rw [bond.stored_comm]; exact ha'⟩
  · rintro ⟨hne, ha, hb⟩
    refine ⟨m, mem_bonded_atoms_of_stored bonds a m ha, a,
      (mem_neighbours bonds hwf m a).mpr ha, b,
      ⟨(mem_neighbours bonds hwf m b).mpr (by rw [bond.stored_comm]; exact hb), hne⟩, rfl⟩

theorem dihedral.stored_eq_cases (a b c d a' b' c' d' : Nat)
    (h : dihedral.stored a b c d = dihedral.stored a' b' c' d') :
    (a = a' ∧ b = b' ∧ c = c' ∧ d = d') ∨ (a = d' ∧ b = c' ∧ c = b' ∧ d = a') := by
  have hdata := congrArg dihedral._data h
  rcases dihedral.stored_data a b c d with h1 | h1 <;>
    rcases dihedral.stored_data a' b' c' d' with h2 | h2 <;>
    rw [h1, h2] at hdata <;>
    simp only [Prod.mk.injEq] at hdata <;>
    omega

theorem bond.stored_index_of_lt (b c : Nat) (h : b < c) :
    (bond.stored b c).index 0 = b ∧ (bond.stored b c).index 1 = c := by
  simp only [bond.index, bond.stored]
  omega

theorem bond.stored_index_of_gt (b c : Nat) (h : c < b) :
    (bond.stored b c).index 0 = c ∧ (bond.stored b c).index 1 = b := by
  simp only [bond.index, bond.stored]
  omega

theorem bond.stored_index_self (bc : bond) (h : bc.index 0 < bc.index 1) :
    bond.stored (bc.index 0) (bc.index 1) = bc := by
  obtain ⟨⟨p, q⟩⟩ := bc
  simp only [bond.index] at h
  simp only [bond.index, bond.stored, bond.mk.injEq, Prod.mk.injEq]
  omega

theorem bond.ne_of_stored_mem (bonds : List bond)
    (hwf : ∀ b ∈ bonds, b.index 0 < b.index 1) (a b : Nat)
    (h : bond.stored a b ∈ bonds) : a ≠ b := by
  have hlt := hwf _ h
  simp only [bond.index, bond.stored] at hlt
  omega

theorem mem_derive_dihedrals (bonds : List bond)
    (hwf : ∀ b ∈ bonds, b.index 0 < b.index 1) (a b c d : Nat) :
    dihedral.stored a b c d ∈ derive_dihedrals bonds ↔
      bond.stored b c ∈ bonds ∧ bond.stored a b ∈ bonds ∧ a ≠ c ∧
        bond.stored c d ∈ bonds ∧ d ≠ b ∧ d ≠ a := by
  unfold derive_dihedrals
  rw [List.mem_dedup]
  simp only [List.mem_flatMap, List.mem_map, List.mem_filter, decide_eq_true_eq,
    Bool.decide_and, Bool.and_eq_true]
  constructor
  · rintro ⟨bc, hbc, a', ⟨ha', hac'⟩, d', ⟨hd', hdb', hda'⟩, heq⟩
    rw [mem_neighbours bonds hwf] at ha' hd'
    have hself := bond.stored_index_self bc (hwf bc hbc)
    have hbc' : bond.stored (bc.index 0) (bc.index 1) ∈ bonds := by rw [hself]; exact hbc
    rcases dihedral.stored_eq_cases _ _ _ _ _ _ _ _ heq with
      ⟨rfl, rfl, rfl, rfl⟩ | ⟨rfl, rfl, rfl, rfl⟩
    · exact ⟨hbc', ha', hac', by rw [bond.stored_comm]; exact hd', hdb', hda'⟩
    · exact ⟨by rw [bond.stored_comm]; exact hbc', hd', hdb',
        by rw [bond.stored_comm]; exact ha', hac', Ne.symm hda'⟩
  · rintro ⟨hbc, hab, hac, hcd, hdb, hda⟩
    have hne_bc := bond.ne_of_stored_mem bonds hwf b c hbc
    have hne_ab := bond.ne_of_stored_mem bonds hwf a b hab
    have hne_cd := bond.ne_of_stored_mem bonds hwf c d hcd
    by_cases hlt : b < c
    · obtain ⟨h0, h1⟩ := bond.stored_index_of_lt b c hlt
      refine ⟨bond.stored b c, hbc, a, ⟨?_, ?_⟩, d, ⟨?_, ?_, ?_⟩, ?_⟩
      · rw [h0, mem_neighbours bonds hwf]; exact hab
      · rw [h1]; exact hac
      · rw [h1, mem_neighbours bonds hwf, bond.stored_comm]; exact hcd
      · rw [h0]; exact hdb
      · exact hda
      · rw [h0, h1]
    · have hgt : c < b := by omega
      obtain ⟨h0, h1⟩ := bond.stored_index_of_gt b c hgt
      refine ⟨bond.stored b c, hbc, d, ⟨?_, ?_⟩, a, ⟨?_, ?_, ?_⟩, ?_⟩
      · rw [h0, mem_neighbours bonds hwf, bond.stored_comm]; exact hcd
      · rw [h1]; exact hdb
      · rw [h1, mem_neighbours bonds hwf]; exact hab
      · rw [h0]; exact hac
      · exact Ne.symm hda
      · rw [h0, h1]
        exact dihedral.stored_reverse a b c d (by omega)

theorem Connectivity.recalculate_caches (c : Connectivity) (hcache : c.caches_valid) :
    c.recalculate._bonds = c._bonds ∧ c.recalculate.uptodate = true ∧
      c.recalculate._angles = derive_angles c._bonds ∧
      c.recalculate._dihedrals = derive_dihedrals c._bonds := by
  by_cases h : c.uptodate = true
  · have hrec : c.recalculate = c := by
      simp [Connectivity.recalculate, h]
    rw [hrec]
    exact ⟨rfl, h, (hcache h).1, (hcache h).2⟩
  · have hrec : c.recalculate
        = { c with
            _angles := derive_angles c._bonds
            _dihedrals := derive_dihedrals c._bonds
            uptodate := true } := by
      simp [Connectivity.recalculate, h]
    rw [hrec]
    exact ⟨rfl, rfl, rfl, rfl⟩

theorem Connectivity.add_bond_caches_valid (c c' : Connectivity) (i j : Nat)
    (hcache : c.caches_valid) (h : c.add_bond i j = .ok c') : c'.caches_valid := by
  unfold Connectivity.add_bond at h
  by_cases hij : i = j
  · simp [hij] at h
  · by_cases hany : (c._bonds.any fun b => b.eq (bond.stored i j)) = true
    · simp only [hij, hany, if_true, if_false] at h
      cases h
      exact hcache
    · simp only [hij, hany, if_false] at h
      cases h
      intro hup
      cases hup

/-- C21. After `recalculate()`, on a connectivity whose bonds are canonical
and whose caches are valid (as after any sequence of `add_bond` and
`recalculate` calls), the bond set is unchanged and the angle set is exactly
the set of `angle(a,m,b)` over the pairs of distinct neighbours `a`, `b` of
`m`: `angle(a,m,b)` is present if and only if `a ≠ b` and both `bond(a,m)` and
`bond(m,b)` are in the bond set; every angle present is built by the `angle`
constructor from such a triple, and none is present twice.  The bonds
`{(0,1),(1,2),(1,3)}` give exactly the angles `{(0,1,2),(0,1,3),(2,1,3)}` and
no dihedral. -/
theorem recalculate_angles (c : Connectivity)
    (hwf : ∀ b ∈ c._bonds, b.index 0 < b.index 1) (hcache : c.caches_valid) :
    c.recalculate._bonds = c._bonds ∧ c.recalculate.uptodate = true ∧
    (∀ a m b, angle.stored a m b ∈ c.recalculate._angles ↔
      a ≠ b ∧ bond.stored a m ∈ c._bonds ∧ bond.stored m b ∈ c._bonds) ∧
    (∀ x ∈ c.recalculate._angles, ∃ a m b, angle.new a m b = some x ∧
      a ≠ b ∧ bond.stored a m ∈ c._bonds ∧ bond.stored m b ∈ c._bonds) ∧
    c.recalculate._angles.Nodup ∧
    ((Connectivity.recalculate
        ⟨[⟨(0, 1)⟩, ⟨(1, 2)⟩, ⟨(1, 3)⟩], [], [], false⟩)._angles.toFinset
        = {⟨(0, 1, 2)⟩, ⟨(0, 1, 3)⟩, ⟨(2, 1, 3)⟩} ∧
      (Connectivity.recalculate
        ⟨[⟨(0, 1)⟩, ⟨(1, 2)⟩, ⟨(1, 3)⟩], [], [], false⟩)._dihedrals = []) := by
  obtain ⟨hb, hu, ha, _⟩ := Connectivity.recalculate_caches c hcache
  refine ⟨hb, hu, ?_, ?_, ?_, by decide, by decide⟩
  · intro a m b
    rw [ha]
    exact mem_derive_angles c._bonds hwf a m b
  · intro x hx
    rw [ha] at hx
    have hx' := hx
    unfold derive_angles at hx'
    rw [List.mem_dedup] at hx'
    simp only [List.mem_flatMap, List.mem_map, List.mem_filter,
      decide_eq_true_eq] at hx'
    obtain ⟨m, _, a, _, b, _, rfl⟩ := hx'
    obtain ⟨hne, hab, hmb⟩ := (mem_derive_angles c._bonds hwf a m b).mp hx
    have ham := bond.ne_of_stored_mem c._bonds hwf a m hab
    exact ⟨a, m, b, by simp [angle.new, hne, ham], hne, hab, hmb⟩
  · rw [ha]
    exact List.nodup_dedup _

theorem recalculate_angles_witness :
    (angle.stored 2 1 0 ∈
        (Connectivity.recalculate
          ⟨[⟨(0, 1)⟩, ⟨(1, 2)⟩, ⟨(1, 3)⟩], [], [], false⟩)._angles ↔
      2 ≠ 0 ∧ bond.stored 2 1 ∈ [(⟨(0, 1)⟩ : bond), ⟨(1, 2)⟩, ⟨(1, 3)⟩] ∧
        bond.stored 1 0 ∈ [(⟨(0, 1)⟩ : bond), ⟨(1, 2)⟩, ⟨(1, 3)⟩]) ∧
    (angle.stored 0 2 3 ∈
        (Connectivity.recalculate
          ⟨[⟨(0, 1)⟩, ⟨(1, 2)⟩, ⟨(1, 3)⟩], [], [], false⟩)._angles ↔
      0 ≠ 3 ∧ bond.stored 0 2 ∈ [(⟨(0, 1)⟩ : bond), ⟨(1, 2)⟩, ⟨(1, 3)⟩] ∧
        bond.stored 2 3 ∈ [(⟨(0, 1)⟩ : bond), ⟨(1, 2)⟩, ⟨(1, 3)⟩]) :=
  ⟨(recalculate_angles ⟨[⟨(0, 1)⟩, ⟨(1, 2)⟩, ⟨(1, 3)⟩], [], [], false⟩
      (by decide) (fun h => absurd h (by decide))).2.2.1 2 1 0,
    (recalculate_angles ⟨[⟨(0, 1)⟩, ⟨(1, 2)⟩, ⟨(1, 3)⟩], [], [], false⟩
      (by decide) (fun h => absurd h (by decide))).2.2.1 0 2 3⟩

/-- C22. After `recalculate()`, on a connectivity whose bonds are canonical
and whose caches are valid, the dihedral set is exactly the set of
`dihedral(a,b,c,d)` over the bonds `(b,c)`, the neighbours `a` of `b` with
`a ≠ c` and the neighbours `d` of `c` with `d ≠ b` and `d ≠ a`; every dihedral
present is built by the `dihedral` constructor from such a chain; a chain
`a-b-c-d` and its reverse `d-c-b-a` give the same dihedral, and none is
present twice.  The bonds `{(0,1),(1,2),(2,3)}` give exactly the one dihedral
`(0,1,2,3)`. -/
theorem recalculate_dihedrals (c : Connectivity)
    (hwf : ∀ b ∈ c._bonds, b.index 0 < b.index 1) (hcache : c.caches_valid) :
    (∀ a b c' d, dihedral.stored a b c' d ∈ c.recalculate._dihedrals ↔
      bond.stored b c' ∈ c._bonds ∧ bond.stored a b ∈ c._bonds ∧ a ≠ c' ∧
        bond.stored c' d ∈ c._bonds ∧ d ≠ b ∧ d ≠ a) ∧
    (∀ x ∈ c.recalculate._dihedrals, ∃ a b c' d, dihedral.new a b c' d = some x ∧
      bond.stored b c' ∈ c._bonds ∧ bond.stored a b ∈ c._bonds ∧ a ≠ c' ∧
        bond.stored c' d ∈ c._bonds ∧ d ≠ b ∧ d ≠ a) ∧
    (∀ a b c' d, dihedral.stored a b c' d ∈ c.recalculate._dihedrals →
      dihedral.stored d c' b a = dihedral.stored a b c' d) ∧
    c.recalculate._dihedrals.Nodup ∧
    (Connectivity.recalculate
      ⟨[⟨(0, 1)⟩, ⟨(1, 2)⟩, ⟨(2, 3)⟩], [], [], false⟩)._dihedrals
      = [⟨(0, 1, 2, 3)⟩] := by
  obtain ⟨_, _, _, hd⟩ := Connectivity.recalculate_caches c hcache
  have hdistinct : ∀ a b c' d,
      bond.stored b c' ∈ c._bonds ∧ bond.stored a b ∈ c._bonds ∧ a ≠ c' ∧
        bond.stored c' d ∈ c._bonds ∧ d ≠ b ∧ d ≠ a →
      a ≠ b ∧ b ≠ c' ∧ c' ≠ d := by
    intro a b c' d h
    exact ⟨bond.ne_of_stored_mem c._bonds hwf a b h.2.1,
      bond.ne_of_stored_mem c._bonds hwf b c' h.1,
      bond.ne_of_stored_mem c._bonds hwf c' d h.2.2.2.1⟩
  refine ⟨?_, ?_, ?_, ?_, by decide⟩
  · intro a b c' d
    rw [hd]
    exact mem_derive_dihedrals c._bonds hwf a b c' d
  · intro x hx
    rw [hd] at hx
    have hx' := hx
    unfold derive_dihedrals at hx'
    rw [List.mem_dedup] at hx'
    simp only [List.mem_flatMap, List.mem_map, List.mem_filter, decide_eq_true_eq,
      Bool.decide_and, Bool.and_eq_true] at hx'
    obtain ⟨bc, _, a, _, d, _, rfl⟩ := hx'
    have hcond := (mem_derive_dihedrals c._bonds hwf a (bc.index 0) (bc.index 1) d).mp hx
    obtain ⟨h1, h2, h3⟩ := hdistinct _ _ _ _ hcond
    exact ⟨a, bc.index 0, bc.index 1, d, dihedral.new_of_adjacent _ _ _ _ h1 h2 h3, hcond⟩
  · intro a b c' d hmem
    rw [hd] at hmem
    have hcond := (mem_derive_dihedrals c._bonds hwf a b c' d).mp hmem
    obtain ⟨h1, h2, h3⟩ := hdistinct _ _ _ _ hcond
    have h4 := hcond.2.2.1
    have h5 := hcond.2.2.2.2.1
    have h6 := hcond.2.2.2.2.2
    exact dihedral.stored_reverse a b c' d (by omega)
  · rw [hd]
    exact List.nodup_dedup _

theorem recalculate_dihedrals_witness :
    (dihedral.stored 3 2 1 0 ∈
        (Connectivity.recalculate
          ⟨[⟨(0, 1)⟩, ⟨(1, 2)⟩, ⟨(2, 3)⟩], [], [], false⟩)._dihedrals ↔
      bond.stored 2 1 ∈ [(⟨(0, 1)⟩ : bond), ⟨(1, 2)⟩, ⟨(2, 3)⟩] ∧
        bond.stored 3 2 ∈ [(⟨(0, 1)⟩ : bond), ⟨(1, 2)⟩, ⟨(2, 3)⟩] ∧ 3 ≠ 1 ∧
        bond.stored 1 0 ∈ [(⟨(0, 1)⟩ : bond), ⟨(1, 2)⟩, ⟨(2, 3)⟩] ∧ 0 ≠ 2 ∧ 0 ≠ 3) ∧
    (Connectivity.recalculate
      ⟨[⟨(0, 1)⟩, ⟨(1, 2)⟩, ⟨(2, 3)⟩], [], [], false⟩)._dihedrals.Nodup :=
  ⟨(recalculate_dihedrals ⟨[⟨(0, 1)⟩, ⟨(1, 2)⟩, ⟨(2, 3)⟩], [], [], false⟩
      (by decide) (fun h => absurd h (by decide))).1 3 2 1 0,
    (recalculate_dihedrals ⟨[⟨(0, 1)⟩, ⟨(1, 2)⟩, ⟨(2, 3)⟩], [], [], false⟩
      (by decide) (fun h => absurd h (by decide))).2.2.2.1⟩

/-! ## Trajectory overrides: theorems -/

theorem Trajectory.apply_overrides_topology (file : Trajectory) (t : Topology)
    (h : file._topology = some t) (frame : Frame) :
    (file.apply_overrides frame)._topology = t := by
  unfold Trajectory.apply_overrides
  rw [h]
  cases file._cell <;> rfl

theorem Trajectory.read_keeps_override (file file' : Trajectory) (t : Topology)
    (frame : Frame) (h : file._topology = some t)
    (hread : file.read = .ok (frame, file')) :
    frame._topology = t ∧ file'._topology = some t := by
  unfold Trajectory.read at hread
  by_cases hc : file._closed = true
  · simp [hc] at hread
  · cases hf : file._format file._step with
    | error e => simp [hc, hf] at hread
    | ok parsed =>
      have hc' : file._closed = false := by simpa using hc
      simp only [hc', Bool.false_eq_true, hf, if_false, Except.ok.injEq,
        Prod.mk.injEq] at hread
      obtain ⟨h1, h2⟩ := hread
      subst h1 h2
      exact ⟨Trajectory.apply_overrides_topology file t h parsed, h⟩

theorem Trajectory.read_step_keeps_override (file file' : Trajectory) (t : Topology)
    (step : Nat) (frame : Frame) (h : file._topology = some t)
    (hread : file.read_step step = .ok (frame, file')) :
    frame._topology = t ∧ file'._topology = some t := by
  unfold Trajectory.read_step at hread
  by_cases hc : file._closed = true
  · simp [hc] at hread
  · by_cases hs : step < file._nsteps
    · cases hf : file._format step with
      | error e => simp [hc, hs, hf] at hread
      | ok parsed =>
        have hc' : file._closed = false := by simpa using hc
        simp only [hc', Bool.false_eq_true, hs, hf, if_false, not_true_eq_false,
          Except.ok.injEq, Prod.mk.injEq] at hread
        obtain ⟨h1, h2⟩ := hread
        subst h1 h2
        exact ⟨Trajectory.apply_overrides_topology file t h parsed, h⟩
    · simp [hc, hs] at hread

theorem Trajectory.calls_keep_override (calls : List trajectory_call) (t : Topology)
    (hnone : ∀ t', trajectory_call.set_topology t' ∉ calls) :
    ∀ file : Trajectory, file._topology = some t →
      ∀ frame ∈ file.calls calls, frame._topology = t := by
  induction calls with
  | nil =>
    intro file _ frame hframe
    simp [Trajectory.calls] at hframe
  | cons call rest ih =>
    have hrest : ∀ t', trajectory_call.set_topology t' ∉ rest :=
      fun t' hmem => hnone t' (List.mem_cons_of_mem _ hmem)
    intro file h frame hframe
    cases call with
    | read =>
      unfold Trajectory.calls at hframe
      cases hr : file.read with
      | error e =>
        rw [hr] at hframe
        exact ih hrest file h frame hframe
      | ok r =>
        obtain ⟨fr, file'⟩ := r
        rw [hr] at hframe
        obtain ⟨h1, h2⟩ := Trajectory.read_keeps_override file file' t fr h hr
        rcases List.mem_cons.mp hframe with rfl | hmem
        · exact h1
        · exact ih hrest file' h2 frame hmem
    | read_step step =>
      unfold Trajectory.calls at hframe
      cases hr : file.read_step step with
      | error e =>
        rw [hr] at hframe
        exact ih hrest file h frame hframe
      | ok r =>
        obtain ⟨fr, file'⟩ := r
        rw [hr] at hframe
        obtain ⟨h1, h2⟩ := Trajectory.read_step_keeps_override file file' t step fr h hr
        rcases List.mem_cons.mp hframe with rfl | hmem
        · exact h1
        · exact ih hrest file' h2 frame hmem
    | set_cell cell =>
      unfold Trajectory.calls at hframe
      cases hr : file.cell cell with
      | error e =>
        rw [hr] at hframe
        exact ih hrest file h frame hframe
      | ok file' =>
        rw [hr] at hframe
        have h2 : file'._topology = some t := by
          unfold Trajectory.cell at hr
          by_cases hc : file._closed = true
          · simp [hc] at hr
          · have hc' : file._closed = false := by simpa using hc
            simp only [hc', Bool.false_eq_true, if_false, Except.ok.injEq] at hr
            subst hr
            exact h
        exact ih hrest file' h2 frame hframe
    | set_topology t' =>
      exact absurd (List.mem_cons_self _ _) (hnone t')

/-- C23. Once `set_topology(t)` has succeeded on a trajectory, every frame that
a later `read()` or `read_step(s)` returns has the topology `t`, whatever the
format parsed (the format is arbitrary here): for one call, through the C
functions, and for every sequence of later `read`, `read_step` and `set_cell`
calls that does not set the topology again; after a later `set_topology(t2)`
the same holds for `t2`. -/
theorem topology_override_applies (status : CAPIStatus) (file : Trajectory)
    (t : Topology) :
    (∀ file', file.topology t = .ok file' →
      file'._topology = some t ∧
      (∀ frame file'', file'.read = .ok (frame, file'') → frame._topology = t) ∧
      (∀ step frame file'', file'.read_step step = .ok (frame, file'') →
        frame._topology = t) ∧
      (∀ frame, (chfl_trajectory_read status file' frame).1 = CAPIStatus.SUCESS →
        (chfl_trajectory_read status file' frame).2.2.2._topology = t) ∧
      (∀ step frame,
        (chfl_trajectory_read_step status file' step frame).1 = CAPIStatus.SUCESS →
        (chfl_trajectory_read_step status file' step frame).2.2.2._topology = t) ∧
      (∀ calls, (∀ t', trajectory_call.set_topology t' ∉ calls) →
        ∀ frame ∈ file'.calls calls, frame._topology = t) ∧
      (∀ t2 file2, file'.topology t2 = .ok file2 →
        ∀ calls, (∀ t', trajectory_call.set_topology t' ∉ calls) →
          ∀ frame ∈ file2.calls calls, frame._topology = t2)) ∧
    ((chfl_trajectory_set_topology status file t).1 = CAPIStatus.SUCESS →
      (chfl_trajectory_set_topology status file t).2.2._topology = some t) := by
  have hset : ∀ (f f' : Trajectory) (u : Topology), f.topology u = .ok f' →
      f'._topology = some u := by
    intro f f' u h
    unfold Trajectory.topology at h
    by_cases hc : f._closed = true
    · simp [hc] at h
    · have hc' : f._closed = false := by simpa using hc
      simp only [hc', Bool.false_eq_true, if_false, Except.ok.injEq] at h
      subst h
      rfl
  have hne : ∀ cls, catch_code cls ≠ CAPIStatus.SUCESS := by
    intro cls
    cases cls <;> decide
  constructor
  · intro file' hfile'
    have h := hset file file' t hfile'
    refine ⟨h, ?_, ?_, ?_, ?_, ?_, ?_⟩
    · intro frame file'' hread
      exact (Trajectory.read_keeps_override file' file'' t frame h hread).1
    · intro step frame file'' hread
      exact (Trajectory.read_step_keeps_override file' file'' t step frame h hread).1
    · intro frame hcode
      cases hr : file'.read with
      | error e =>
        simp [chfl_trajectory_read, CHFL_ERROR_WRAP_RETCODE, hr, hne] at hcode
      | ok r =>
        obtain ⟨fr, file''⟩ := r
        simp only [chfl_trajectory_read, CHFL_ERROR_WRAP_RETCODE, hr]
        exact (Trajectory.read_keeps_override file' file'' t fr h hr).1
    · intro step frame hcode
      cases hr : file'.read_step step with
      | error e =>
        simp [chfl_trajectory_read_step, CHFL_ERROR_WRAP_RETCODE, hr, hne] at hcode
      | ok r =>
        obtain ⟨fr, file''⟩ := r
        simp only [chfl_trajectory_read_step, CHFL_ERROR_WRAP_RETCODE, hr]
        exact (Trajectory.read_step_keeps_override file' file'' t step fr h hr).1
    · intro calls hnone
      exact Trajectory.calls_keep_override calls t hnone file' h
    · intro t2 file2 hfile2 calls hnone
      exact Trajectory.calls_keep_override calls t2 hnone file2 (hset file' file2 t2 hfile2)
  · intro hcode
    cases hr : file.topology t with
    | error e =>
      simp [chfl_trajectory_set_topology, CHFL_ERROR_WRAP_RETCODE, hr, hne] at hcode
    | ok file' =>
      simp only [chfl_trajectory_set_topology, CHFL_ERROR_WRAP_RETCODE, hr]
      exact hset file file' t hr

theorem topology_override_applies_witness :
    (⟨fun _ => .ok Frame.without_atoms, 2, 0,
        some ⟨[⟨"He", 4, 0, AtomType.ELEMENT⟩], [0], ⟨[], [], [], true⟩⟩, none,
        false⟩ : Trajectory)._topology
      = some ⟨[⟨"He", 4, 0, AtomType.ELEMENT⟩], [0], ⟨[], [], [], true⟩⟩ ∧
    ∀ frame ∈ (⟨fun _ => .ok Frame.without_atoms, 2, 0,
        some ⟨[⟨"He", 4, 0, AtomType.ELEMENT⟩], [0], ⟨[], [], [], true⟩⟩, none,
        false⟩ : Trajectory).calls [trajectory_call.read, trajectory_call.read_step 1],
      frame._topology = ⟨[⟨"He", 4, 0, AtomType.ELEMENT⟩], [0], ⟨[], [], [], true⟩⟩ :=
  ⟨((topology_override_applies ⟨""⟩
      ⟨fun _ => .ok Frame.without_atoms, 2, 0, none, none, false⟩
      ⟨[⟨"He", 4, 0, AtomType.ELEMENT⟩], [0], ⟨[], [], [], true⟩⟩).1
      ⟨fun _ => .ok Frame.without_atoms, 2, 0,
        some ⟨[⟨"He", 4, 0, AtomType.ELEMENT⟩], [0], ⟨[], [], [], true⟩⟩, none, false⟩
      rfl).1,
    ((topology_override_applies ⟨""⟩
      ⟨fun _ => .ok Frame.without_atoms, 2, 0, none, none, false⟩
      ⟨[⟨"He", 4, 0, AtomType.ELEMENT⟩], [0], ⟨[], [], [], true⟩⟩).1
      ⟨fun _ => .ok Frame.without_atoms, 2, 0,
        some ⟨[⟨"He", 4, 0, AtomType.ELEMENT⟩], [0], ⟨[], [], [], true⟩⟩, none, false⟩
      rfl).2.2.2.2.2.1
      [trajectory_call.read, trajectory_call.read_step 1]
      (by intro t' h; simp at h)⟩

end chemfiles
